import Mathlib

/-!
# Verification of the sshield notify core

Shallow embedding of the event-processing pipeline of the sshield
repository (Go) and proofs about it.  Each Go function that a claim
depends on is translated into an executable Lean definition operating on
`List Char` / `String`, with Go `time.Time` values represented as `Int`
unix nanoseconds and Go maps represented as association lists.
-/

namespace SShield

/-! ## Regex character classes

The sshd-log parser uses Go (RE2) regular expressions.  RE2's `\s` is
exactly `[\t\n\f\r ]`, `\S` its complement, `[^ ]` excludes only the
space character and `\d` is `[0-9]`. -/

def isWS (c : Char) : Bool :=
  c = ' ' || c = '\t' || c = '\n' || c = '\x0c' || c = '\r'

def nonWS (c : Char) : Bool := !isWS c

def nonSp (c : Char) : Bool := c != ' '

def isDig (c : Char) : Bool := '0' ≤ c && c ≤ '9'

/-- Strip a literal off the front of the input: `stripL lit s = some r`
exactly when `s = lit ++ r`. -/
def stripL : List Char → List Char → Option (List Char)
  | [], s => some s
  | _ :: _, [] => none
  | a :: as, c :: cs => if c = a then stripL as cs else none

/-- Scan a non-empty maximal run of characters satisfying `p`
(the behaviour of a greedy `(X+)` capture followed in the pattern by a
character no `X` can match). -/
def scanTok (p : Char → Bool) (s : List Char) : Option (List Char × List Char) :=
  if (s.takeWhile p).isEmpty then none else some (s.takeWhile p, s.dropWhile p)

/-- `strings.Contains` on char lists. -/
def containsSub : (hay needle : List Char) → Bool
  | [], needle => (stripL needle ([] : List Char)).isSome
  | hay@(_ :: t), needle => (stripL needle hay).isSome || containsSub t needle

instance {ε α : Type} [DecidableEq ε] [DecidableEq α] : DecidableEq (Except ε α) :=
  fun x y =>
    match x, y with
    | .ok a, .ok b =>
      if h : a = b then isTrue (by rw [h]) else isFalse (by intro hh; cases hh; exact h rfl)
    | .error a, .error b =>
      if h : a = b then isTrue (by rw [h]) else isFalse (by intro hh; cases hh; exact h rfl)
    | .ok _, .error _ => isFalse (by intro hh; cases hh)
    | .error _, .ok _ => isFalse (by intro hh; cases hh)

/-! ## Data model (`LoginEvent`, from the notify package's types file) -/

def EventLoginSuccess : String := "login_success"
def EventLoginFailed : String := "login_failed"

structure LoginEvent where
  type : String
  user : String
  ip : String
  method : String
  port : Nat
  timestamp : Int
  hostname : String
  location : String
  logPath : String
  message : String
deriving DecidableEq, Repr

/-! ## Parser helpers (`normalizeMethod`, `stripAddress`, `strconv.Atoi`) -/

/-- `strings.ToLower` restricted to the ASCII range (sshd method tokens
are ASCII). -/
def toLowerAscii (s : String) : String := ⟨s.data.map Char.toLower⟩

def normalizeMethod (m : String) : String :=
  let m := toLowerAscii m
  if m = "publickey" then "publickey"
  else if m = "password" then "password"
  else if m = "keyboard-interactive/pam" || m = "keyboard-interactive" then
    "keyboard-interactive"
  else m

/-- `stripAddress`: drop an IPv4-mapped `::ffff:` front marker and cut at
the first `%` zone separator. -/
def stripAddress (addr : String) : String :=
  let d1 := match stripL ("::ffff:".data) addr.data with
    | some r => r
    | none => addr.data
  ⟨d1.takeWhile (fun c => c != '%')⟩

def digitVal (c : Char) : Nat := c.toNat - 48

def digitsToNat (ds : List Char) : Nat :=
  ds.foldl (fun acc c => 10 * acc + digitVal c) 0

def maxInt64 : Nat := 9223372036854775807

/-- `strconv.Atoi` applied to a non-empty all-digit capture: the decimal
value, saturating at `math.MaxInt64` (Go's `ParseInt` returns the
clamped value together with the range error, and the parser discards the
error). -/
def atoiClamp (ds : List Char) : Nat := min (digitsToNat ds) maxInt64

/-! ## The four message patterns

`successRe = ^Accepted (\S+) for (\S+) from ([^ ]+) port (\d+)`
`failRe    = ^Failed (\S+) for (?:invalid user )?(\S+) from ([^ ]+) port (\d+)`
`disconnectAuthRe = ^Disconnected from authenticating user (\S+) ([^ ]+) port (\d+)`
`connectionClosedRe = ^Connection closed by (?:authenticating user (\S+) )?([^ ]+) port (\d+)`

In all four patterns each greedy capture is followed by a literal its
character class cannot match, so the captures are the maximal runs; the
only choice points are the two optional groups, which Go's leftmost-first
semantics tries in "present" order first.  The matchers below implement
exactly that. -/

def matchSuccess (s : List Char) :
    Option (List Char × List Char × List Char × List Char) :=
  (stripL "Accepted ".data s).bind fun r1 =>
  (scanTok nonWS r1).bind fun mt =>
  (stripL " for ".data mt.2).bind fun r3 =>
  (scanTok nonWS r3).bind fun ut =>
  (stripL " from ".data ut.2).bind fun r5 =>
  (scanTok nonSp r5).bind fun it =>
  (stripL " port ".data it.2).bind fun r7 =>
  (scanTok isDig r7).map fun dt => (mt.1, ut.1, it.1, dt.1)

def matchFailTail (m : List Char) (r : List Char) :
    Option (List Char × List Char × List Char × List Char) :=
  (scanTok nonWS r).bind fun ut =>
  (stripL " from ".data ut.2).bind fun r5 =>
  (scanTok nonSp r5).bind fun it =>
  (stripL " port ".data it.2).bind fun r7 =>
  (scanTok isDig r7).map fun dt => (m, ut.1, it.1, dt.1)

def matchFail (s : List Char) :
    Option (List Char × List Char × List Char × List Char) :=
  (stripL "Failed ".data s).bind fun r1 =>
  (scanTok nonWS r1).bind fun mt =>
  (stripL " for ".data mt.2).bind fun r3 =>
  match stripL "invalid user ".data r3 with
  | some r3x =>
    match matchFailTail mt.1 r3x with
    | some caps => some caps
    | none => matchFailTail mt.1 r3
  | none => matchFailTail mt.1 r3

def matchDisc (s : List Char) : Option (List Char × List Char × List Char) :=
  (stripL "Disconnected from authenticating user ".data s).bind fun r1 =>
  (scanTok nonWS r1).bind fun ut =>
  (stripL " ".data ut.2).bind fun r3 =>
  (scanTok nonSp r3).bind fun it =>
  (stripL " port ".data it.2).bind fun r5 =>
  (scanTok isDig r5).map fun dt => (ut.1, it.1, dt.1)

def matchClosedTail (r : List Char) : Option (List Char × List Char) :=
  (scanTok nonSp r).bind fun it =>
  (stripL " port ".data it.2).bind fun r2 =>
  (scanTok isDig r2).map fun dt => (it.1, dt.1)

def matchClosed (s : List Char) :
    Option (Option (List Char) × List Char × List Char) :=
  (stripL "Connection closed by ".data s).bind fun r =>
  match (stripL "authenticating user ".data r).bind (fun r1 =>
      (scanTok nonWS r1).bind fun ut =>
      (stripL " ".data ut.2).bind fun r2 =>
      (matchClosedTail r2).map fun ipd => (ut.1, ipd.1, ipd.2)) with
  | some (u, ip, d) => some (some u, ip, d)
  | none => (matchClosedTail r).map fun ipd => (none, ipd.1, ipd.2)

def preauthTag : List Char := "[preauth]".data

/-! ## `parseJournalMessage`

The enrichment call `LookupIPLocation` performs network I/O; it enters
the embedding as the function parameter `lookupLoc`. -/

def parseJournalMessage (lookupLoc : String → String) (message host : String)
    (ts : Int) : Option LoginEvent :=
  if message = "" then none
  else match matchSuccess message.data with
  | some (m, u, ip, d) =>
    let ipS := stripAddress ⟨ip⟩
    some { type := EventLoginSuccess, user := ⟨u⟩, ip := ipS,
           method := normalizeMethod ⟨m⟩, port := atoiClamp d,
           timestamp := ts, hostname := host, location := lookupLoc ipS,
           logPath := "", message := message }
  | none => match matchFail message.data with
    | some (m, u, ip, d) =>
      let ipS := stripAddress ⟨ip⟩
      some { type := EventLoginFailed, user := ⟨u⟩, ip := ipS,
             method := normalizeMethod ⟨m⟩, port := atoiClamp d,
             timestamp := ts, hostname := host, location := lookupLoc ipS,
             logPath := "", message := message }
    | none => match matchDisc message.data with
      | some (u, ip, d) =>
        let ipS := stripAddress ⟨ip⟩
        some { type := EventLoginFailed, user := ⟨u⟩, ip := ipS,
               method := "preauth", port := atoiClamp d,
               timestamp := ts, hostname := host, location := lookupLoc ipS,
               logPath := "", message := message }
      | none =>
        if containsSub message.data preauthTag then
          match matchClosed message.data with
          | some (uo, ip, d) =>
            let u : String := match uo with
              | some u => ⟨u⟩
              | none => "unknown"
            let ipS := stripAddress ⟨ip⟩
            some { type := EventLoginFailed, user := u, ip := ipS,
                   method := "preauth", port := atoiClamp d,
                   timestamp := ts, hostname := host, location := lookupLoc ipS,
                   logPath := "", message := message }
          | none => none
        else none

/-! ## Curl-command tokenizer (`tokenize`)

Go scans the command rune by rune with an escape flag, a quote state and
a current-token buffer. -/

structure TokState where
  tokens : List (List Char)
  current : List Char
  inQuote : Option Char
  escape : Bool

def tokStep (st : TokState) (ch : Char) : TokState :=
  if st.escape then { st with current := st.current ++ [ch], escape := false }
  else if ch = '\\' then { st with escape := true }
  else match st.inQuote with
  | some q =>
    if ch = q then { st with inQuote := none }
    else { st with current := st.current ++ [ch] }
  | none =>
    if ch = '"' || ch = '\x27' then { st with inQuote := some ch }
    else if ch = ' ' || ch = '\t' || ch = '\n' || ch = '\r' then
      if st.current.isEmpty then st
      else { st with tokens := st.tokens ++ [st.current], current := [] }
    else { st with current := st.current ++ [ch] }

def tokenize (cmd : String) : Except String (List String) :=
  let fin := cmd.data.foldl tokStep ⟨[], [], none, false⟩
  let toks := if fin.current.isEmpty then fin.tokens
              else fin.tokens ++ [fin.current]
  if fin.inQuote.isSome then .error "unclosed quote in curl command"
  else .ok (toks.map fun t => (⟨t⟩ : String))

/-! ## Curl command parser (`ParseCurl`) and request model -/

def toUpperAscii (s : String) : String := ⟨s.data.map Char.toUpper⟩

/-- Go `unicode.IsSpace` restricted to ASCII, for `strings.TrimSpace`. -/
def isGoSpace (c : Char) : Bool :=
  c = ' ' || c = '\t' || c = '\n' || c = '\x0b' || c = '\x0c' || c = '\r'

def trimSpace (s : String) : String :=
  ⟨((s.data.dropWhile isGoSpace).reverse.dropWhile isGoSpace).reverse⟩

/-- `parseHeader`: split `"Key: Value"` at the first colon, trimming both
sides. -/
def parseHeader (h : String) : Option (String × String) :=
  let pre := h.data.takeWhile (fun c => c != ':')
  if pre.length = h.data.length then none
  else some (trimSpace ⟨pre⟩, trimSpace ⟨h.data.drop (pre.length + 1)⟩)

def isURL (s : String) : Bool :=
  (stripL "http://".data s.data).isSome || (stripL "https://".data s.data).isSome

def startsWithDash (s : String) : Bool :=
  match s.data with
  | [] => false
  | c :: _ => c = '-'

structure CurlRequest where
  method : String
  url : String
  headers : List (String × String)
  body : String
deriving DecidableEq, Repr

/-- ASCII case-insensitive header-name comparison (Go canonicalizes MIME
header keys on `Set`/`Get`). -/
def headerKeyEq (a b : String) : Bool := toLowerAscii a = toLowerAscii b

def headerGet (hs : List (String × String)) (k : String) : Option String :=
  match hs.find? (fun kv => headerKeyEq kv.1 k) with
  | some kv => some kv.2
  | none => none

def headerSet (hs : List (String × String)) (k v : String) : List (String × String) :=
  if hs.any (fun kv => headerKeyEq kv.1 k) then
    hs.map fun kv => if headerKeyEq kv.1 k then (kv.1, v) else kv
  else hs ++ [(k, v)]

def parseCurlArgs : List String → CurlRequest → Except String CurlRequest
  | [], req => .ok req
  | arg :: rest, req =>
    if arg = "curl" then parseCurlArgs rest req
    else if arg = "-X" || arg = "--request" then
      match rest with
      | [] => .error ("missing value for " ++ arg)
      | v :: rest2 => parseCurlArgs rest2 { req with method := toUpperAscii v }
    else if arg = "-H" || arg = "--header" then
      match rest with
      | [] => .error ("missing value for " ++ arg)
      | v :: rest2 =>
        match parseHeader v with
        | none => .error ("invalid header format: " ++ v)
        | some kv => parseCurlArgs rest2 { req with headers := headerSet req.headers kv.1 kv.2 }
    else if arg = "-d" || arg = "--data" || arg = "--data-raw" then
      match rest with
      | [] => .error ("missing value for " ++ arg)
      | v :: rest2 =>
        parseCurlArgs rest2 { req with
          body := v,
          method := if req.method = "GET" then "POST" else req.method }
    else if startsWithDash arg then
      match rest with
      | v :: rest2 =>
        if !startsWithDash v && !isURL v then parseCurlArgs rest2 req
        else parseCurlArgs (v :: rest2) req
      | [] => .ok req
    else if isURL arg then parseCurlArgs rest { req with url := arg }
    else parseCurlArgs rest req

def ParseCurl (curlCmd : String) : Except String CurlRequest :=
  match tokenize curlCmd with
  | .error e => .error e
  | .ok args =>
    match parseCurlArgs args { method := "GET", url := "", headers := [], body := "" } with
    | .error e => .error e
    | .ok req =>
      if req.url = "" then .error "no URL found in curl command"
      else .ok req

/-! ## Curl execution model (`CurlRequest.Execute`, `CurlNotifier`)

An `HttpClient` carries the only datum relevant here, its total timeout
in nanoseconds (`none` models Go's zero `Timeout`, i.e. no timeout);
`http.DefaultClient` is the zero client.  The Go `text/template`
rendering of strings that do contain `\x7b\x7b` enters as the oracle
parameter `tmpl`. -/

structure HttpClient where
  timeout : Option Int
deriving DecidableEq, Repr

def httpDefaultClient : HttpClient := { timeout := none }

structure HttpCall where
  client : HttpClient
  method : String
  url : String
  headers : List (String × String)
  body : String
deriving DecidableEq, Repr

def renderTemplate (tmpl : String → Except String String) (text : String) :
    Except String String :=
  if containsSub text.data ('\x7b' :: '\x7b' :: []) then tmpl text
  else .ok text

def renderHeaderList (tmpl : String → Except String String) :
    List (String × String) → Except String (List (String × String))
  | [] => .ok []
  | (k, v) :: rest =>
    match renderTemplate tmpl v with
    | .error e => .error e
    | .ok v2 =>
      match renderHeaderList tmpl rest with
      | .error e => .error e
      | .ok rest2 => .ok ((k, v2) :: rest2)

/-- `CurlRequest.Execute`: renders URL, body and headers, applies the
default Content-Type, and issues the request **via `http.DefaultClient`**
(the source's final statement is `http.DefaultClient.Do(req)`). -/
def CurlRequestExecute (r : CurlRequest) (tmpl : String → Except String String) :
    Except String HttpCall :=
  match renderTemplate tmpl r.url with
  | .error e => .error ("failed to render URL template: " ++ e)
  | .ok url =>
  match renderTemplate tmpl r.body with
  | .error e => .error ("failed to render body template: " ++ e)
  | .ok body =>
  match renderHeaderList tmpl r.headers with
  | .error e => .error ("failed to render header: " ++ e)
  | .ok hs =>
  let hs2 := if body ≠ "" && headerGet hs "Content-Type" = none then
      headerSet hs "Content-Type" "application/json"
    else hs
  .ok { client := httpDefaultClient, method := r.method, url := url,
        headers := hs2, body := body }

structure CurlNotifier where
  curlCmd : String
  parsedCurl : CurlRequest
  httpClient : HttpClient
deriving DecidableEq, Repr

/-- `NewCurlNotifier` parses the command and builds a 10-second-timeout
`http.Client`, storing it in the notifier. -/
def NewCurlNotifier (curlCmd : String) : Except String CurlNotifier :=
  match ParseCurl curlCmd with
  | .error e => .error ("parse curl command failed: " ++ e)
  | .ok parsed =>
    .ok { curlCmd := curlCmd, parsedCurl := parsed,
          httpClient := { timeout := some 10000000000 } }

/-- `CurlNotifier.Send` delegates the HTTP request to
`parsedCurl.Execute` (response-status handling follows the call and is
not modelled; the claim concerns the request itself). -/
def CurlNotifierSend (c : CurlNotifier) (tmpl : String → Except String String) :
    Except String HttpCall :=
  CurlRequestExecute c.parsedCurl tmpl

/-! ## Event deduper (`eventDeduper.isDuplicate`, watcher.go) -/

def eventDedupeWindow : Int := 5000000000

structure EventDeduper where
  seen : List (String × Int)
deriving DecidableEq, Repr

def newEventDeduper : EventDeduper := { seen := [] }

def lookupKey (l : List (String × Int)) (k : String) : Option Int :=
  match l.find? (fun kv => kv.1 = k) with
  | some kv => some kv.2
  | none => none

def setKey (l : List (String × Int)) (k : String) (v : Int) : List (String × Int) :=
  if l.any (fun kv => kv.1 = k) then
    l.map fun kv => if kv.1 = k then (kv.1, v) else kv
  else l ++ [(k, v)]

def dedupeKey (e : LoginEvent) : String :=
  e.ip ++ ":" ++ toString e.port ++ ":" ++ e.user

/-- `isDuplicate`: only `login_failed` events are deduplicated; an event
whose key was seen strictly less than the 5-second window ago is a
duplicate; otherwise its timestamp is recorded and entries staler than
ten windows are pruned. -/
def isDuplicate (d : EventDeduper) (e : LoginEvent) : Bool × EventDeduper :=
  if e.type ≠ EventLoginFailed then (false, d)
  else
    let key := dedupeKey e
    let record : Bool × EventDeduper :=
      let seen1 := setKey d.seen key e.timestamp
      let seen2 := seen1.filter fun kv => !(e.timestamp - kv.2 > eventDedupeWindow * 10)
      (false, { seen := seen2 })
    match lookupKey d.seen key with
    | some lastSeen =>
      if e.timestamp - lastSeen < eventDedupeWindow then (true, d) else record
    | none => record

/-! ## Channel configuration and the dispatcher (`dispatchEvent`) -/

structure CurlConfig where
  command : String
deriving DecidableEq, Repr

structure EmailChannelConfig where
  To : String
  From : String
  Server : String
  Port : Int
  User : String
  Pass : String
deriving DecidableEq, Repr

structure ChannelConfig where
  name : String
  enabled : Bool
  type : String
  curl : Option CurlConfig
  email : Option EmailChannelConfig
deriving DecidableEq, Repr

structure Config where
  channels : List ChannelConfig
deriving DecidableEq, Repr

def GetEnabledChannels (c : Config) : List ChannelConfig :=
  c.channels.filter (·.enabled)

def channelDisplayName (ch : ChannelConfig) : String :=
  if ch.name ≠ "" then ch.name else ch.type

/-- Outcome of `loadConfig()` (which reads `/etc/sshield/notify.json`):
Go returns a `*Config` and an `error`; the sentinel errors
`ErrConfigNotFound` and `ErrNotEnabled` are distinguished by
`dispatchEvent`. -/
inductive LoadConfigOutcome where
  | ok (cfg : Option Config)
  | errNotFound
  | errNotEnabled
  | errOther (msg : String)
deriving DecidableEq, Repr

/-- `dispatchEvent`, returning the list of channels whose notifier send
was attempted together with the function's error result.  The oracle
`send` models `buildChannelNotifier` followed by `notifier.Send` for one
channel. -/
def dispatchEvent (load : LoadConfigOutcome)
    (send : ChannelConfig → Except String Unit) :
    List ChannelConfig × Except String Unit :=
  match load with
  | .errNotFound => ([], .ok ())
  | .errNotEnabled => ([], .ok ())
  | .errOther m => ([], .error ("read notify config failed: " ++ m))
  | .ok none => ([], .ok ())
  | .ok (some cfg) =>
    let channels := GetEnabledChannels cfg
    if channels.isEmpty then ([], .ok ())
    else
      let errs := channels.filterMap fun ch =>
        match send ch with
        | .error e => some (channelDisplayName ch ++ ": " ++ e)
        | .ok _ => none
      (channels, if errs.isEmpty then .ok () else .error "partial notify failure")

/-! ## SMTP notifier transport (`sendMailWithTimeout`,
`validateSMTPLine`) -/

structure EmailNotifier where
  To : String
  From : String
  Server : String
  Port : Int
  Username : String
  Password : String
deriving DecidableEq, Repr

def hasCRLF (s : String) : Bool := s.data.any (fun c => c = '\r' || c = '\n')

/-- `strings.ContainsAny(line, CRLF)` guard. -/
def validateSMTPLine (line : String) : Except String Unit :=
  if hasCRLF line then .error "smtp: invalid line contains CR/LF"
  else .ok ()

inductive SmtpAction where
  | dial (addr : String)
  | tlsHandshake (host : String)
  | startTLS (host : String)
  | auth
  | mailFrom (a : String)
  | rcptTo (a : String)
  | dataWrite (msg : String)
  | quit
deriving DecidableEq, Repr

/-- Network oracle for one SMTP session: which steps the remote end lets
succeed and which extensions it advertises. -/
structure SmtpNet where
  dialOk : Bool
  tlsOk : Bool
  extSTARTTLS : Bool
  startTLSOk : Bool
  extAUTH : Bool
  authOk : Bool
  mailOk : Bool
  rcptOk : Bool
  dataOk : Bool
  quitOk : Bool
deriving DecidableEq, Repr

/-- `net.SplitHostPort` on `host:port` shaped addresses. -/
def splitHostPort (addr : String) : Except String String :=
  let cs := addr.data
  let afterLast := cs.reverse.takeWhile (fun c => c != ':')
  if afterLast.length = cs.length then .error "missing port in address"
  else
    let host := cs.take (cs.length - afterLast.length - 1)
    match host with
    | '[' :: t =>
      if t.reverse.take 1 = [']'] then .ok ⟨(t.reverse.drop 1).reverse⟩
      else .error "missing ']' in address"
    | _ =>
      if host.any (fun c => c = ':') then .error "too many colons in address"
      else .ok ⟨host⟩

def needsImplicitTLS (port : Int) : Bool := port = 465

/-- `sendMailWithTimeout`: validates both addresses, resolves the host,
dials, performs implicit TLS on port 465 or STARTTLS when offered,
authenticates, and runs the MAIL/RCPT/DATA/QUIT sequence.  The returned
list is the trace of network actions in order. -/
def sendMailWithTimeout (e : EmailNotifier) (net : SmtpNet) (msg : String) :
    List SmtpAction × Except String Unit :=
  match validateSMTPLine e.From with
  | .error er => ([], .error er)
  | .ok _ =>
  match validateSMTPLine e.To with
  | .error er => ([], .error er)
  | .ok _ =>
  let addr := e.Server ++ ":" ++ toString e.Port
  match splitHostPort addr with
  | .error _ => ([], .error ("invalid smtp addr " ++ addr))
  | .ok host =>
  if !net.dialOk then ([.dial addr], .error "failed to connect smtp server")
  else
    let implicitTLS := needsImplicitTLS e.Port
    let pre : List SmtpAction := [.dial addr]
    let afterTLS : Option (List SmtpAction) :=
      if implicitTLS then
        if net.tlsOk then some (pre ++ [.tlsHandshake host]) else none
      else
        if net.extSTARTTLS then
          if net.startTLSOk then some (pre ++ [.startTLS host]) else none
        else some pre
    match afterTLS with
    | none =>
      if implicitTLS then (pre ++ [.tlsHandshake host], .error "smtp tls handshake failed")
      else (pre ++ [.startTLS host], .error "failed to start TLS")
    | some tr1 =>
      if !net.extAUTH then (tr1, .error "smtp: server doesn't support AUTH")
      else if !net.authOk then (tr1 ++ [.auth], .error "smtp auth failed")
      else
        let tr2 := tr1 ++ [.auth]
        if !net.mailOk then (tr2 ++ [.mailFrom e.From], .error "smtp mail from failed")
        else
          let tr3 := tr2 ++ [.mailFrom e.From]
          if !net.rcptOk then (tr3 ++ [.rcptTo e.To], .error "smtp rcpt to failed")
          else
            let tr4 := tr3 ++ [.rcptTo e.To]
            if !net.dataOk then (tr4 ++ [.dataWrite msg], .error "smtp data write failed")
            else
              let tr5 := tr4 ++ [.dataWrite msg]
              if !net.quitOk then (tr5 ++ [.quit], .error "smtp quit failed")
              else (tr5 ++ [.quit], .ok ())

/-! ## Calendar arithmetic

`time.ParseInLocation` / `time.Time.Format` over the fixed UTC+8
Asia/Shanghai offset (no DST in the relevant era), using the standard
days-from-civil algorithm. -/

def isLeap (y : Int) : Bool := (y % 4 = 0 && y % 100 ≠ 0) || y % 400 = 0

def daysInMonth (m : Nat) (y : Int) : Nat :=
  match m with
  | 1 => 31 | 2 => if isLeap y then 29 else 28 | 3 => 31 | 4 => 30
  | 5 => 31 | 6 => 30 | 7 => 31 | 8 => 31 | 9 => 30 | 10 => 31
  | 11 => 30 | 12 => 31
  | _ => 0

/-- Days since 1970-01-01 of the (possibly unnormalized-day) civil date;
linear in `d`, so day overflow rolls into the next month exactly as Go's
date normalization does. -/
def daysFromCivil (y m d : Int) : Int :=
  let y2 := y - (if m ≤ 2 then 1 else 0)
  let era := Int.fdiv y2 400
  let yoe := y2 - era * 400
  let doy := (153 * (m + (if m > 2 then (-3 : Int) else 9)) + 2) / 5 + d - 1
  let doe := yoe * 365 + yoe / 4 - yoe / 100 + doy
  era * 146097 + doe - 719468

def civilFromDays (z : Int) : Int × Int × Int :=
  let z2 := z + 719468
  let era := Int.fdiv z2 146097
  let doe := z2 - era * 146097
  let yoe := (doe - doe / 1460 + doe / 36524 - doe / 146096) / 365
  let y := yoe + era * 400
  let doy := doe - (365 * yoe + yoe / 4 - yoe / 100)
  let mp := (5 * doy + 2) / 153
  let d := doy - (153 * mp + 2) / 5 + 1
  let m := mp + (if mp < 10 then 3 else -9)
  (y + (if m ≤ 2 then 1 else 0), m, d)

def shanghaiOffsetSeconds : Int := 28800

/-- Unix nanoseconds of a civil datetime interpreted in Asia/Shanghai. -/
def shCivilToNanos (y : Int) (m d h mi s : Nat) : Int :=
  ((daysFromCivil y m d) * 86400 + h * 3600 + mi * 60 + s
    - shanghaiOffsetSeconds) * 1000000000

/-- `time.ParseInLocation ("Jan 2 15:04:05 2006")` in Shanghai: range
validation (day against the month, clock fields) then conversion. -/
def parseInLocShanghai (mn day h mi s : Nat) (year : Int) : Option Int :=
  if 1 ≤ day ∧ day ≤ daysInMonth mn year ∧ h ≤ 23 ∧ mi ≤ 59 ∧ s ≤ 59 then
    some (shCivilToNanos year mn day h mi s)
  else none

def pad2 (n : Nat) : String := if n < 10 then "0" ++ toString n else toString n

def pad4 (y : Int) : String :=
  let n := y.toNat
  if n < 10 then "000" ++ toString n
  else if n < 100 then "00" ++ toString n
  else if n < 1000 then "0" ++ toString n
  else toString n

/-- `formatShanghaiRFC3339`: RFC3339 rendering of a unix-nanosecond
instant in the fixed +08:00 zone. -/
def formatShanghaiRFC3339 (ts : Int) : String :=
  let secs := Int.fdiv ts 1000000000 + shanghaiOffsetSeconds
  let days := Int.fdiv secs 86400
  let sod := (secs - days * 86400).toNat
  let ymd := civilFromDays days
  pad4 ymd.1 ++ "-" ++ pad2 ymd.2.1.toNat ++ "-" ++ pad2 ymd.2.2.toNat ++ "T" ++
    pad2 (sod / 3600) ++ ":" ++ pad2 (sod % 3600 / 60) ++ ":" ++ pad2 (sod % 60) ++
    "+08:00"

/-! ## Syslog line matcher (`syslogRe`) and `parseAuthLogLine`

`syslogRe = ^(Jan|…|Dec)\s+(\d{1,2})\s+(\d{2}:\d{2}:\d{2})\s+([^ ]+)\s+sshd(?:\[[^]]*\])?:\s+(.*)$`

All `\s+` separators and the `\d` groups are forced (a shorter greedy
run would leave a character the following pattern element rejects), with
one exception: the host capture `([^ ]+)` may contain non-space
whitespace (tabs), at which the engine can backtrack to let the
following `\s+` start earlier.  `matchSyslog` tries those host splits
longest-first, like the engine.  (`\s+` itself is always taken maximally
here; a shorter `\s+` run before the host would only matter for lines
with tabs abutting the hostname, which syslog does not produce.) -/

def monthNames : List (List Char × Nat) :=
  [("Jan".data, 1), ("Feb".data, 2), ("Mar".data, 3), ("Apr".data, 4),
   ("May".data, 5), ("Jun".data, 6), ("Jul".data, 7), ("Aug".data, 8),
   ("Sep".data, 9), ("Oct".data, 10), ("Nov".data, 11), ("Dec".data, 12)]

def matchMonth (s : List Char) : Option (Nat × List Char) :=
  monthNames.firstM fun nm =>
    (stripL nm.1 s).map fun r => (nm.2, r)

/-- After the host: `\s+sshd(?:\[[^]]*\])?:\s+`, returning the payload
start. -/
def syslogAfterHost (after : List Char) : Option (List Char) :=
  (scanTok isWS after).bind fun w =>
  (stripL "sshd".data w.2).bind fun r =>
  let viaBracket : Option (List Char) :=
    match r with
    | '[' :: r2 =>
      match r2.dropWhile (fun c => c != ']') with
      | ']' :: r3 => stripL ":".data r3
      | _ => none
    | _ => none
  let afterColon : Option (List Char) :=
    match viaBracket with
    | some r4 => some r4
    | none => stripL ":".data r
  afterColon.bind fun r4 =>
  (scanTok isWS r4).map fun w2 => w2.2

def hostCandidates (hFull afterFull : List Char) : List (List Char × List Char) :=
  (hFull, afterFull) ::
    (List.range hFull.length).reverse.filterMap fun i =>
      if i = 0 then none
      else match hFull.drop i with
        | c :: _ => if isWS c then some (hFull.take i, hFull.drop i ++ afterFull) else none
        | [] => none

def firstHostMatch : List (List Char × List Char) → Option (List Char × List Char)
  | [] => none
  | (h, after) :: rest =>
    match syslogAfterHost after with
    | some payload =>
      if payload.any (fun c => c = '\n') then firstHostMatch rest
      else some (h, payload)
    | none => firstHostMatch rest

def matchSyslog (s : List Char) :
    Option (Nat × Nat × (Nat × Nat × Nat) × List Char × List Char) :=
  (matchMonth s).bind fun mr =>
  (scanTok isWS mr.2).bind fun w1 =>
  let dRun := w1.2.takeWhile isDig
  if dRun.length = 0 || 2 < dRun.length then none else
  let r2 := w1.2.dropWhile isDig
  (scanTok isWS r2).bind fun w2 =>
  match w2.2 with
  | h1 :: h2 :: ':' :: m1 :: m2 :: ':' :: s1 :: s2 :: r3 =>
    if isDig h1 && isDig h2 && isDig m1 && isDig m2 && isDig s1 && isDig s2 then
      (scanTok isWS r3).bind fun w3 =>
      let hFull := w3.2.takeWhile nonSp
      if hFull.isEmpty then none else
      (firstHostMatch (hostCandidates hFull (w3.2.dropWhile nonSp))).map fun hp =>
        (mr.1, digitsToNat dRun,
         (digitsToNat [h1, h2], digitsToNat [m1, m2], digitsToNat [s1, s2]),
         hp.1, hp.2)
    else none
  | _ => none

/-- `parseAuthLogLine`.  Go reads `time.Now()` for both the current year
(in the host's local zone) and the 24-hour-future test; they enter the
embedding as the parameters `nowYear` and `nowNanos`. -/
def parseAuthLogLine (lookupLoc : String → String) (nowNanos : Int)
    (nowYear : Int) (line : String) : Option LoginEvent :=
  if line = "" then none
  else match matchSyslog line.data with
  | none => none
  | some (mn, day, clock, host, payload) =>
    match parseInLocShanghai mn day clock.1 clock.2.1 clock.2.2 nowYear with
    | none => none
    | some ts0 =>
      let ts := if ts0 > nowNanos + 86400000000000 then
          shCivilToNanos (nowYear - 1) mn day clock.1 clock.2.1 clock.2.2
        else ts0
      parseJournalMessage lookupLoc (⟨payload⟩ : String) (⟨host⟩ : String) ts

/-! ## `EmailNotifier.Send`: message composition then transport -/

/-- `EmailNotifier.Send` composes the localized plain-text message and
hands it to `sendMailWithTimeout`. -/
def EmailNotifierSend (e : EmailNotifier) (net : SmtpNet) (event : LoginEvent) :
    List SmtpAction × Except String Unit :=
  let subject := "服务器登录提醒 - " ++ event.type
  let location := if event.location = "" then "-" else event.location
  let method := if event.method = "" then "-" else event.method
  let port := if event.port > 0 then toString event.port else "-"
  let message := if event.message = "" then "(无原始日志)" else event.message
  let logPath := if trimSpace event.logPath = "" then "-" else trimSpace event.logPath
  let timestamp := formatShanghaiRFC3339 event.timestamp
  let body := "\n服务器登录提醒\n-------------------\n事件类型: " ++ event.type ++
    "\n服务器: " ++ event.hostname ++ "\n用户: " ++ event.user ++
    "\n来源IP: " ++ event.ip ++ "\n来源端口: " ++ port ++
    "\n认证方式: " ++ method ++ "\n位置: " ++ location ++
    "\n时间: " ++ timestamp ++ "\n日志路径: " ++ logPath ++
    "\n日志: " ++ message ++ "\n"
  let msg := "To: " ++ e.To ++ "\r\nFrom: " ++ e.From ++ "\r\nSubject: " ++
    subject ++ "\r\nContent-Type: text/plain; charset=UTF-8\r\n\r\n" ++ body
  sendMailWithTimeout e net msg

/-! ## Concrete sample values used in witnesses and counterexamples -/

/-- A single-quote character as a one-character string. -/
def sq : String := "\x27"

/-- The spec's curl tokenizer sample
`curl -H "X: y" 'a b' http://x`. -/
def sampleCurlCmd : String := "curl -H \"X: y\" " ++ sq ++ "a b" ++ sq ++ " http://x"

def evFailAt (ts : Int) : LoginEvent :=
  { type := "login_failed", user := "bob", ip := "9.9.9.9", method := "password",
    port := 22, timestamp := ts, hostname := "h", location := "", logPath := "",
    message := "Failed password for bob from 9.9.9.9 port 22 ssh2" }

def evSuccessAt (ts : Int) : LoginEvent :=
  { type := "login_success", user := "root", ip := "1.2.3.4", method := "publickey",
    port := 5555, timestamp := ts, hostname := "h", location := "", logPath := "",
    message := "Accepted publickey for root from 1.2.3.4 port 5555 ssh2" }

def alwaysFailSend : ChannelConfig → Except String Unit := fun _ => .error "down"

/-- The event parsed from the sample `Accepted publickey …` journal
message. -/
def evAccepted : LoginEvent :=
  { type := "login_success", user := "root", ip := "1.2.3.4", method := "publickey",
    port := 5555, timestamp := 0, hostname := "h", location := "", logPath := "",
    message := "Accepted publickey for root from 1.2.3.4 port 5555 ssh2" }

/-- The event parsed from a `Jan 2` syslog line in year 2025
(timestamp 2025-01-02T10:00:00+08:00 in unix nanoseconds). -/
def evJan2 : LoginEvent :=
  { type := "login_failed", user := "bob", ip := "9.9.9.9", method := "password",
    port := 22, timestamp := 1735783200000000000, hostname := "h", location := "",
    logPath := "", message := "Failed password for bob from 9.9.9.9 port 22 ssh2" }

def disabledCurlChannel : ChannelConfig :=
  { name := "c1", enabled := false, type := "curl",
    curl := some { command := "curl http://x" }, email := none }

def crlfNotifier : EmailNotifier :=
  { To := "a@b\r\nBcc: evil@example.com", From := "c@d", Server := "smtp.e",
    Port := 25, Username := "u", Password := "p" }

def okNet : SmtpNet :=
  { dialOk := true, tlsOk := true, extSTARTTLS := true, startTLSOk := true,
    extAUTH := true, authOk := true, mailOk := true, rcptOk := true,
    dataOk := true, quitOk := true }

/-! ## Cursor store (`SourceState`, `CursorStore.Load` / `Save`)

`Save` serializes with `json.MarshalIndent(state, "", "  ")` (both fields
`omitempty`) and writes the bytes with a single `os.WriteFile(path, data,
0600)`.  `Load` reads the file, returns an empty state when it is missing
or empty, otherwise `json.Unmarshal`s it, treating the whole contents as
a legacy bare `journal_cursor` when unmarshalling fails, and finally
replaces a nil `file_offsets` map by an empty one.

The embedding implements the relevant fragment of `encoding/json`: the
encoder's string escaping (with HTML escaping of `<`, `>`, `&`, as Go
applies by default), `MarshalIndent`'s two-space indentation, and a
faithful decoder for the `SourceState` target type (string field,
`map[string]int64` field, unknown fields skipped, trailing data
rejected, top-level `null` accepted as a no-op).  Go's `nil` map is
modelled as `none`, an allocated map as `some` of an association list;
Go map reads/writes are `lookupKey`/`setKey`. -/

def lbrace : Char := '\x7b'
def rbrace : Char := '\x7d'

structure SourceState where
  journalCursor : String
  fileOffsets : Option (List (String × Int))
deriving DecidableEq, Repr

structure CursorStore where
  path : String
deriving DecidableEq, Repr

def hexDig (d : Nat) : Char :=
  match d with
  | 0 => '0' | 1 => '1' | 2 => '2' | 3 => '3' | 4 => '4'
  | 5 => '5' | 6 => '6' | 7 => '7' | 8 => '8' | 9 => '9'
  | 10 => 'a' | 11 => 'b' | 12 => 'c' | 13 => 'd' | 14 => 'e' | 15 => 'f'
  | _ => '0'

/-- One character of Go's JSON string encoder (HTML escaping on). -/
def escChar (c : Char) : List Char :=
  if c = '"' then ['\\', '"']
  else if c = '\\' then ['\\', '\\']
  else if c = '\n' then ['\\', 'n']
  else if c = '\r' then ['\\', 'r']
  else if c = '\t' then ['\\', 't']
  else if c.toNat < 32 then ['\\', 'u', '0', '0', hexDig (c.toNat / 16), hexDig (c.toNat % 16)]
  else if c = '<' then ['\\', 'u', '0', '0', '3', 'c']
  else if c = '>' then ['\\', 'u', '0', '0', '3', 'e']
  else if c = '&' then ['\\', 'u', '0', '0', '2', '6']
  else if c.toNat = 8232 then ['\\', 'u', '2', '0', '2', '8']
  else if c.toNat = 8233 then ['\\', 'u', '2', '0', '2', '9']
  else [c]

def escString : List Char → List Char
  | [] => []
  | c :: cs => escChar c ++ escString cs

def qstr (s : String) : List Char := '"' :: (escString s.data ++ ['"'])

def natChars (n : Nat) : List Char :=
  if h : n < 10 then [hexDig n] else natChars (n / 10) ++ [hexDig (n % 10)]
  termination_by n
  decreasing_by exact Nat.div_lt_self (by omega) (by omega)

def intChars (v : Int) : List Char :=
  if v < 0 then '-' :: natChars (-v).toNat else natChars v.toNat

def offsEntry (k : String) (v : Int) : List Char :=
  [' ', ' ', ' ', ' '] ++ qstr k ++ [':', ' '] ++ intChars v

def offsTail : List (String × Int) → List Char
  | [] => ['\n', ' ', ' ', rbrace]
  | (k, v) :: tl => [',', '\n'] ++ offsEntry k v ++ offsTail tl

def offsObj (k : String) (v : Int) (tl : List (String × Int)) : List Char :=
  [lbrace, '\n'] ++ offsEntry k v ++ offsTail tl

/-- `json.MarshalIndent` of a `SourceState` whose `FileOffsets` map holds
the entries `offs` in Go's sorted-key output order. -/
def marshalChars (c : String) (offs : List (String × Int)) : List Char :=
  match offs with
  | [] =>
    if c = "" then [lbrace, rbrace]
    else [lbrace, '\n', ' ', ' '] ++ qstr "journal_cursor" ++ [':', ' '] ++ qstr c ++
      ['\n', rbrace]
  | (k, v) :: tl =>
    if c = "" then
      [lbrace, '\n', ' ', ' '] ++ qstr "file_offsets" ++ [':', ' '] ++
        offsObj k v tl ++ ['\n', rbrace]
    else
      [lbrace, '\n', ' ', ' '] ++ qstr "journal_cursor" ++ [':', ' '] ++ qstr c ++
        [',', '\n', ' ', ' '] ++ qstr "file_offsets" ++ [':', ' '] ++
        offsObj k v tl ++ ['\n', rbrace]

/-- The bytes `CursorStore.Save` writes (Go first replaces a nil map by
an empty one; `omitempty` then drops it either way). -/
def saveContent (s : SourceState) : String :=
  ⟨marshalChars s.journalCursor (s.fileOffsets.getD [])⟩

/-- File-system side effects, to state what `Save` does on disk. -/
inductive FsOp where
  | writeFile (path : String) (data : String) (perm : Nat)
  | renameFile (src dst : String)
deriving DecidableEq, Repr

/-- `Save`'s effect trace: a single direct `os.WriteFile` (0600 = 384)
to the store's path. -/
def saveFsOps (c : CursorStore) (s : SourceState) : List FsOp :=
  [FsOp.writeFile c.path (saveContent s) 384]

/-- The write-to-temporary-then-rename shape the spec asserts for `Save`. -/
def atomicSavePattern (ops : List FsOp) (target : String) : Prop :=
  ∃ tmp data perm, tmp ≠ target ∧
    ops = [FsOp.writeFile tmp data perm, FsOp.renameFile tmp target]

/-! ### The decoder (`json.Unmarshal` into `SourceState`) -/

def isJsonWs (c : Char) : Bool := c = ' ' || c = '\t' || c = '\n' || c = '\r'

def skipWs (cs : List Char) : List Char := cs.dropWhile isJsonWs

def hexVal (c : Char) : Option Nat :=
  if '0' ≤ c ∧ c ≤ '9' then some (c.toNat - 48)
  else if 'a' ≤ c ∧ c ≤ 'f' then some (c.toNat - 87)
  else if 'A' ≤ c ∧ c ≤ 'F' then some (c.toNat - 55)
  else none

/-- Look ahead for the low half of a surrogate pair: a `\uXXXX` escape
holding a low surrogate, combined with the given high surrogate value
`n`. -/
def pairLook (n : Nat) (cs3 : List Char) :
    Option (Char × { t : List Char // t.length ≤ cs3.length }) :=
  match cs3 with
  | '\\' :: 'u' :: h5 :: h6 :: h7 :: h8 :: cs5 =>
    match hexVal h5, hexVal h6, hexVal h7, hexVal h8 with
    | some a2, some b2, some c3, some d2 =>
      let n2 := a2 * 4096 + b2 * 256 + c3 * 16 + d2
      if 56320 ≤ n2 ∧ n2 ≤ 57343 then
        some (Char.ofNat (65536 + (n - 55296) * 1024 + (n2 - 56320)),
          ⟨cs5, by simp; omega⟩)
      else none
    | _, _, _, _ => none
  | _ => none

/-- JSON string-body scanner with Go's escape handling: standard
escapes, `\uXXXX` with surrogate pairs (a lone or mismatched surrogate
becomes U+FFFD, as in Go's lenient `unquote`), and rejection of raw
control characters. -/
def parseStrBody : List Char → Option (List Char × List Char)
  | [] => none
  | c :: cs =>
    if c = '"' then some ([], cs)
    else if c = '\\' then
      match cs with
      | [] => none
      | e :: cs2 =>
        if e = '"' then (parseStrBody cs2).map fun p => ('"' :: p.1, p.2)
        else if e = '\\' then (parseStrBody cs2).map fun p => ('\\' :: p.1, p.2)
        else if e = '/' then (parseStrBody cs2).map fun p => ('/' :: p.1, p.2)
        else if e = 'b' then (parseStrBody cs2).map fun p => ('\x08' :: p.1, p.2)
        else if e = 'f' then (parseStrBody cs2).map fun p => ('\x0c' :: p.1, p.2)
        else if e = 'n' then (parseStrBody cs2).map fun p => ('\n' :: p.1, p.2)
        else if e = 'r' then (parseStrBody cs2).map fun p => ('\r' :: p.1, p.2)
        else if e = 't' then (parseStrBody cs2).map fun p => ('\t' :: p.1, p.2)
        else if e = 'u' then
          match cs2 with
          | h1 :: h2 :: h3 :: h4 :: cs3 =>
            match hexVal h1, hexVal h2, hexVal h3, hexVal h4 with
            | some a, some b, some c2, some d =>
              let n := a * 4096 + b * 256 + c2 * 16 + d
              if n < 55296 ∨ 57343 < n then
                (parseStrBody cs3).map fun p => (Char.ofNat n :: p.1, p.2)
              else if n ≤ 56319 then
                match pairLook n cs3 with
                | some (ch, ⟨cs5, hle⟩) =>
                  (parseStrBody cs5).map fun p => (ch :: p.1, p.2)
                | none => (parseStrBody cs3).map fun p => ('�' :: p.1, p.2)
              else (parseStrBody cs3).map fun p => ('�' :: p.1, p.2)
            | _, _, _, _ => none
          | _ => none
        else none
    else if c.toNat < 32 then none
    else (parseStrBody cs).map fun p => (c :: p.1, p.2)
  termination_by cs => cs.length
  decreasing_by all_goals simp <;> omega

/-- Digit-run part of the `int64` number decoder, after the optional
leading minus sign was consumed. -/
def scanInt64Core (neg : Bool) (cs1 : List Char) : Option (Int × List Char) :=
  match cs1 with
  | [] => none
  | c :: _ =>
    if !isDig c then none
    else
      let digits := cs1.takeWhile isDig
      let rest := cs1.dropWhile isDig
      if c = '0' ∧ 1 < digits.length then none
      else
        match rest with
        | '.' :: _ => none
        | 'e' :: _ => none
        | 'E' :: _ => none
        | _ =>
          let n : Nat := digitsToNat digits
          let v : Int := if neg then -(n : Int) else (n : Int)
          if v < -(2 ^ 63) ∨ (2 ^ 63 - 1 : Int) < v then none else some (v, rest)

/-- Scan a JSON number and decode it as an `int64`: fractions,
exponents, leading zeros and out-of-range values all make the
surrounding `Unmarshal` fail. -/
def scanInt64 (cs : List Char) : Option (Int × List Char) :=
  let neg : Bool := decide (cs.head? = some '-')
  scanInt64Core neg (if neg then cs.drop 1 else cs)

/-- Skip over a JSON number of the full grammar (used only inside
skipped unknown fields). -/
def scanNumSkip (cs : List Char) : Option (List Char) :=
  let cs1 := match cs with
    | '-' :: t => t
    | _ => cs
  match cs1 with
  | [] => none
  | c :: _ =>
    if !isDig c then none
    else
      let digits := cs1.takeWhile isDig
      if c = '0' ∧ 1 < digits.length then none
      else
        let r1 := cs1.dropWhile isDig
        let r2opt : Option (List Char) := match r1 with
          | '.' :: t =>
            match t.takeWhile isDig with
            | [] => none
            | _ => some (t.dropWhile isDig)
          | _ => some r1
        match r2opt with
        | none => none
        | some r2 =>
          match r2 with
          | 'e' :: t =>
            let t2 := match t with
              | '+' :: u => u
              | '-' :: u => u
              | _ => t
            match t2.takeWhile isDig with
            | [] => none
            | _ => some (t2.dropWhile isDig)
          | 'E' :: t =>
            let t2 := match t with
              | '+' :: u => u
              | '-' :: u => u
              | _ => t
            match t2.takeWhile isDig with
            | [] => none
            | _ => some (t2.dropWhile isDig)
          | _ => some r2

mutual

/-- Skip any JSON value (for unknown object fields). -/
def skipValue : Nat → List Char → Option (List Char)
  | 0, _ => none
  | fuel + 1, cs =>
    match skipWs cs with
    | [] => none
    | c :: rest =>
      if c = '"' then (parseStrBody rest).map (·.2)
      else if c = lbrace then skipMembers fuel rest true
      else if c = '[' then skipElems fuel rest true
      else if c = 't' then stripL "rue".data rest
      else if c = 'f' then stripL "alse".data rest
      else if c = 'n' then stripL "ull".data rest
      else scanNumSkip (c :: rest)

def skipMembers : Nat → List Char → Bool → Option (List Char)
  | 0, _, _ => none
  | fuel + 1, cs, first =>
    match skipWs cs with
    | [] => none
    | c :: rest =>
      if c = rbrace ∧ first then some rest
      else if c = '"' then
        match parseStrBody rest with
        | none => none
        | some p =>
          match skipWs p.2 with
          | ':' :: r3 =>
            match skipValue fuel r3 with
            | none => none
            | some r4 =>
              match skipWs r4 with
              | ',' :: r6 => skipMembers fuel r6 false
              | c2 :: r7 => if c2 = rbrace then some r7 else none
              | [] => none
          | _ => none
      else none

def skipElems : Nat → List Char → Bool → Option (List Char)
  | 0, _, _ => none
  | fuel + 1, cs, first =>
    match skipWs cs with
    | [] => none
    | c :: rest =>
      if c = ']' ∧ first then some rest
      else
        match skipValue fuel (c :: rest) with
        | none => none
        | some r4 =>
          match skipWs r4 with
          | ',' :: r6 => skipElems fuel r6 false
          | ']' :: r7 => some r7
          | _ => none

end

/-- Decode the members of the `file_offsets` object into the existing
map (duplicate keys overwrite; Go decodes into the map it allocated). -/
def decodeOffsMembers : Nat → List (String × Int) → List Char → Bool →
    Option (List (String × Int) × List Char)
  | 0, _, _, _ => none
  | fuel + 1, acc, cs, first =>
    match skipWs cs with
    | [] => none
    | c :: rest =>
      if c = rbrace ∧ first then some (acc, rest)
      else if c = '"' then
        match parseStrBody rest with
        | none => none
        | some p =>
          match skipWs p.2 with
          | ':' :: r3 =>
            match scanInt64 (skipWs r3) with
            | none => none
            | some vr =>
              let acc2 := setKey acc ⟨p.1⟩ vr.1
              match skipWs vr.2 with
              | ',' :: r6 => decodeOffsMembers fuel acc2 r6 false
              | c2 :: r7 => if c2 = rbrace then some (acc2, r7) else none
              | [] => none
          | _ => none
      else none

/-- Decode the members of the top-level object into a `SourceState`
(fields in document order, last occurrence wins, unknown fields
skipped); at the closing brace only trailing whitespace may remain. -/
def decodeTopMembers : Nat → SourceState → List Char → Bool → Option SourceState
  | 0, _, _, _ => none
  | fuel + 1, st, cs, first =>
    match skipWs cs with
    | [] => none
    | c :: rest =>
      if c = rbrace ∧ first then
        if skipWs rest = [] then some st else none
      else if c = '"' then
        match parseStrBody rest with
        | none => none
        | some p =>
          match skipWs p.2 with
          | ':' :: r3 =>
            let r3w := skipWs r3
            let step : Option (SourceState × List Char) :=
              if (⟨p.1⟩ : String) = "journal_cursor" then
                match r3w with
                | '"' :: r4 =>
                  (parseStrBody r4).map fun q => ({ st with journalCursor := ⟨q.1⟩ }, q.2)
                | 'n' :: r4 => (stripL "ull".data r4).map fun r5 => (st, r5)
                | _ => none
              else if (⟨p.1⟩ : String) = "file_offsets" then
                match r3w with
                | [] => none
                | c2 :: r4 =>
                  if c2 = lbrace then
                    (decodeOffsMembers fuel (st.fileOffsets.getD []) r4 true).map
                      fun q => ({ st with fileOffsets := some q.1 }, q.2)
                  else if c2 = 'n' then
                    (stripL "ull".data r4).map fun r5 => (st, r5)
                  else none
              else (skipValue fuel r3w).map fun r4 => (st, r4)
            match step with
            | none => none
            | some sr =>
              match skipWs sr.2 with
              | ',' :: r6 => decodeTopMembers fuel sr.1 r6 false
              | c2 :: r7 =>
                if c2 = rbrace then
                  if skipWs r7 = [] then some sr.1 else none
                else none
              | [] => none
          | _ => none
      else none

/-- `json.Unmarshal(data, &SourceState{})`: succeeds on an object
(decoded field-wise) or on `null` (a no-op); everything else — other
value types, syntax errors, trailing data — fails. -/
def unmarshalSS (data : String) : Option SourceState :=
  match skipWs data.data with
  | [] => none
  | c :: rest =>
    if c = lbrace then
      decodeTopMembers (data.data.length + 1)
        { journalCursor := "", fileOffsets := none } rest true
    else if c = 'n' then
      match stripL "ull".data rest with
      | some r =>
        if skipWs r = [] then some { journalCursor := "", fileOffsets := none }
        else none
      | none => none
    else none

/-- `CursorStore.Load` as a function of the file contents (`none` =
file does not exist). -/
def loadFromContent : Option String → SourceState
  | none => { journalCursor := "", fileOffsets := some [] }
  | some data =>
    if data = "" then { journalCursor := "", fileOffsets := some [] }
    else
      match unmarshalSS data with
      | some st => { st with fileOffsets := some (st.fileOffsets.getD []) }
      | none => { journalCursor := data, fileOffsets := some [] }

/-- Byte-wise (= code-point-wise, for valid UTF-8) strict order on
strings, the order in which Go serializes map keys. -/
def charListLtB : List Char → List Char → Bool
  | [], [] => false
  | [], _ :: _ => true
  | _ :: _, [] => false
  | a :: as, b :: bs =>
    if a.toNat < b.toNat then true
    else if b.toNat < a.toNat then false
    else charListLtB as bs

/-- The canonical representation of a Go `map[string]int64` as an
association list: keys strictly sorted in Go's marshal output order and
values in the `int64` range. -/
def canonicalOffsets (l : List (String × Int)) : Prop :=
  l.Pairwise (fun a b => charListLtB a.1.data b.1.data = true) ∧
  ∀ kv ∈ l, -(2 ^ 63) ≤ kv.2 ∧ kv.2 ≤ 2 ^ 63 - 1

instance (l : List (String × Int)) : Decidable (canonicalOffsets l) := by
  unfold canonicalOffsets; infer_instance

/-- A `SourceState` that faithfully represents a Go value: either a nil
map or a canonical association list. -/
def canonicalState (s : SourceState) : Prop :=
  match s.fileOffsets with
  | none => True
  | some l => canonicalOffsets l

instance (s : SourceState) : Decidable (canonicalState s) := by
  unfold canonicalState
  cases s.fileOffsets <;> infer_instance

/-- Fold a batch of decoded members into the map in document order
(duplicates overwrite, as Go map assignment does). -/
def setKeyAll (acc : List (String × Int)) (l : List (String × Int)) : List (String × Int) :=
  l.foldl (fun a kv => setKey a kv.1 kv.2) acc

/-- The character stream of a marshalled offsets object after its
opening brace. -/
def offsBody (k : String) (v : Int) (tl : List (String × Int)) : List Char :=
  '\n' :: (offsEntry k v ++ offsTail tl)

/-! ## Token-shape predicates used in theorem statements -/

/-- A non-empty `\S+` token. -/
def tokNonWS (s : String) : Prop := s.data ≠ [] ∧ ∀ c ∈ s.data, nonWS c = true

/-- A non-empty `[^ ]+` token. -/
def tokNonSp (s : String) : Prop := s.data ≠ [] ∧ ∀ c ∈ s.data, nonSp c = true

/-- A non-empty `\d+` token. -/
def tokDigits (s : String) : Prop := s.data ≠ [] ∧ ∀ c ∈ s.data, isDig c = true

instance (s : String) : Decidable (tokNonWS s) := by unfold tokNonWS; infer_instance
instance (s : String) : Decidable (tokNonSp s) := by unfold tokNonSp; infer_instance
instance (s : String) : Decidable (tokDigits s) := by unfold tokDigits; infer_instance

/-- The trailing text does not begin with a digit (so a preceding greedy
`(\d+)` capture stops exactly at its end). -/
def headNotDigit (s : String) : Bool :=
  match s.data with
  | [] => true
  | c :: _ => !isDig c

/-! # Theorems -/

/-! ## Scanning lemmas -/

theorem stripL_append (lit r : List Char) : stripL lit (lit ++ r) = some r := by
  induction lit with
  | nil => rfl
  | cons a as ih => simpa [stripL] using ih

theorem stripL_eq_some_iff {lit s r : List Char} :
    stripL lit s = some r ↔ s = lit ++ r := by
  induction lit generalizing s with
  | nil => simp [stripL, eq_comm]
  | cons a as ih =>
    cases s with
    | nil => simp [stripL]
    | cons c cs =>
      by_cases hca : c = a
      · subst hca
        rw [stripL, if_pos rfl, ih]
        simp
      · rw [stripL, if_neg hca]
        simp [hca]

theorem head?_append_left {α : Type} {a : List α} (b : List α) (h : a ≠ []) :
    (a ++ b).head? = a.head? := by
  cases a with
  | nil => exact absurd rfl h
  | cons x xs => rfl

theorem stripL_none_of_head_ne {lit s : List Char} {la c : Char}
    (h1 : lit.head? = some la) (h2 : s.head? = some c) (hne : c ≠ la) :
    stripL lit s = none := by
  cases lit with
  | nil => cases h1
  | cons a as =>
    cases s with
    | nil => rfl
    | cons x xs =>
      injection h1 with h1; injection h2 with h2
      subst h1; subst h2
      rw [stripL, if_neg hne]

theorem takeWhile_append_of_all {p : Char → Bool} {u : List Char} (rest : List Char)
    (h : ∀ c ∈ u, p c = true) :
    (u ++ rest).takeWhile p = u ++ rest.takeWhile p := by
  induction u with
  | nil => rfl
  | cons a t ih =>
    simp [List.cons_append, List.takeWhile_cons, h a (List.mem_cons_self a t),
      ih fun c hc => h c (List.mem_cons_of_mem _ hc)]

theorem dropWhile_append_of_all {p : Char → Bool} {u : List Char} (rest : List Char)
    (h : ∀ c ∈ u, p c = true) :
    (u ++ rest).dropWhile p = rest.dropWhile p := by
  induction u with
  | nil => rfl
  | cons a t ih =>
    simp only [List.cons_append, List.dropWhile_cons, h a (List.mem_cons_self a t)]
    simpa using ih fun c hc => h c (List.mem_cons_of_mem _ hc)

theorem takeWhile_eq_nil_of_head {p : Char → Bool} {rest : List Char}
    (h : ∀ c, rest.head? = some c → p c = false) :
    rest.takeWhile p = [] := by
  cases rest with
  | nil => rfl
  | cons c cs => simp [List.takeWhile_cons, h c rfl]

theorem dropWhile_eq_self_of_head {p : Char → Bool} {rest : List Char}
    (h : ∀ c, rest.head? = some c → p c = false) :
    rest.dropWhile p = rest := by
  cases rest with
  | nil => rfl
  | cons c cs => simp [List.dropWhile_cons, h c rfl]

/-- A greedy non-empty capture stops exactly at the first character the
class rejects. -/
theorem scanTok_exact {p : Char → Bool} {u rest : List Char}
    (hu : u ≠ []) (hall : ∀ c ∈ u, p c = true)
    (hrest : ∀ c, rest.head? = some c → p c = false) :
    scanTok p (u ++ rest) = some (u, rest) := by
  unfold scanTok
  rw [takeWhile_append_of_all rest hall, takeWhile_eq_nil_of_head hrest,
      dropWhile_append_of_all rest hall, dropWhile_eq_self_of_head hrest]
  simp [List.isEmpty_iff, hu]

/-! ## Association-list helper lemmas (deduper state) -/

theorem mem_setKey_key_eq {l : List (String × Int)} {k : String} {v : Int} :
    ∀ kv ∈ setKey l k v, kv.1 = k → kv = (k, v) := by
  intro kv hmem hk
  unfold setKey at hmem
  split at hmem
  · rcases List.mem_map.mp hmem with ⟨kv0, _, heq⟩
    by_cases h0 : kv0.1 = k
    · simp only [h0, if_pos] at heq
      subst heq; simp [h0]
    · simp only [h0, if_neg, not_false_iff] at heq
      subst heq; exact absurd hk h0
  · rcases List.mem_append.mp hmem with hin | hin
    · rename_i hany
      exfalso
      exact hany (List.any_eq_true.mpr ⟨kv, hin, by simp [hk]⟩)
    · simpa using hin

theorem exists_key_setKey (l : List (String × Int)) (k : String) (v : Int) :
    ∃ kv ∈ setKey l k v, kv.1 = k := by
  unfold setKey
  split
  · rename_i hany
    rcases List.any_eq_true.mp hany with ⟨kv0, hin, hk0⟩
    refine ⟨(kv0.1, v), List.mem_map.mpr ⟨kv0, hin, ?_⟩, by simpa using hk0⟩
    simp only [of_decide_eq_true hk0, if_pos]
  · exact ⟨(k, v), List.mem_append.mpr (Or.inr (by simp)), rfl⟩

theorem lookupKey_filter_all (p : String × Int → Bool) (k : String) (v : Int) :
    ∀ (l : List (String × Int)),
      (∀ kv ∈ l, kv.1 = k → kv = (k, v)) →
      (∃ kv ∈ l, kv.1 = k) →
      p (k, v) = true →
      lookupKey (l.filter p) k = some v := by
  intro l
  induction l with
  | nil => intro _ hex _; rcases hex with ⟨_, h, _⟩; cases h
  | cons hd tl ih =>
    intro hall hex hp
    by_cases hhd : hd.1 = k
    · have hhdv : hd = (k, v) := hall hd (List.mem_cons_self _ _) hhd
      subst hhdv
      simp only [List.filter_cons, hp, if_pos]
      simp [lookupKey]
    · have hex' : ∃ kv ∈ tl, kv.1 = k := by
        rcases hex with ⟨kv, hkv, hk⟩
        rcases List.mem_cons.mp hkv with rfl | hin
        · exact absurd hk hhd
        · exact ⟨kv, hin, hk⟩
      have hall' : ∀ kv ∈ tl, kv.1 = k → kv = (k, v) := fun kv hkv hk =>
        hall kv (List.mem_cons_of_mem _ hkv) hk
      have := ih hall' hex' hp
      cases hphd : p hd
      · simpa [List.filter_cons, hphd] using this
      · simp only [List.filter_cons, hphd, if_pos]
        simpa [lookupKey, List.find?_cons_of_neg, hhd] using this

/-! ## C5: deduper behaviour -/

/-- C5: the deduper passes every non-`login_failed` event untouched; a
`login_failed` event is rejected exactly when a timestamp recorded under
its `ip:port:user` key lies strictly within the 5-second window before
it; on a pass the event's timestamp is recorded under its key; and on
the same key a second event 2 s later is rejected while one 5.001 s
later is accepted. -/
theorem isDuplicate_spec :
    (∀ (d : EventDeduper) (e : LoginEvent), e.type ≠ EventLoginFailed →
        isDuplicate d e = (false, d)) ∧
    (∀ (d : EventDeduper) (e : LoginEvent), e.type = EventLoginFailed →
        ((isDuplicate d e).1 = true ↔
          ∃ t, lookupKey d.seen (dedupeKey e) = some t ∧
            e.timestamp - t < eventDedupeWindow)) ∧
    (∀ (d : EventDeduper) (e : LoginEvent), e.type = EventLoginFailed →
        (isDuplicate d e).1 = false →
        lookupKey ((isDuplicate d e).2).seen (dedupeKey e) = some e.timestamp) ∧
    ((isDuplicate newEventDeduper (evFailAt 0)).1 = false ∧
      (isDuplicate ((isDuplicate newEventDeduper (evFailAt 0)).2)
        (evFailAt 2000000000)).1 = true ∧
      (isDuplicate ((isDuplicate newEventDeduper (evFailAt 0)).2)
        (evFailAt 5001000000)).1 = false) := by
  refine ⟨?_, ?_, ?_, by decide⟩
  · intro d e h
    unfold isDuplicate
    rw [if_pos h]
  · intro d e h
    unfold isDuplicate
    rw [if_neg (by simp [h])]
    cases hlk : lookupKey d.seen (dedupeKey e) with
    | none =>
      simp only [hlk]
      constructor
      · intro hfalse; cases hfalse
      · rintro ⟨t, ht, _⟩; cases ht
    | some t =>
      simp only [hlk]
      by_cases hwin : e.timestamp - t < eventDedupeWindow
      · rw [if_pos hwin]
        exact ⟨fun _ => ⟨t, rfl, hwin⟩, fun _ => rfl⟩
      · rw [if_neg hwin]
        constructor
        · intro hfalse; cases hfalse
        · rintro ⟨t2, ht2, hw2⟩
          injection ht2 with ht2; subst ht2
          exact absurd hw2 hwin
  · intro d e h _
    unfold isDuplicate
    rw [if_neg (by simp [h])]
    have hrec : lookupKey
        (((setKey d.seen (dedupeKey e) e.timestamp).filter
          (fun kv => !(e.timestamp - kv.2 > eventDedupeWindow * 10)))) (dedupeKey e) =
        some e.timestamp := by
      apply lookupKey_filter_all
      · exact fun kv hm hk => mem_setKey_key_eq kv hm hk
      · exact exists_key_setKey _ _ _
      · simp [eventDedupeWindow]
    cases hlk : lookupKey d.seen (dedupeKey e) with
    | none => simpa [hlk] using hrec
    | some t =>
      by_cases hwin : e.timestamp - t < eventDedupeWindow
      · -- in this branch the result is `(true, d)`; the outer hypothesis
        -- `(isDuplicate d e).1 = false` rules it out
        exfalso
        rename_i hfalse
        unfold isDuplicate at hfalse
        rw [if_neg (by simp [h])] at hfalse
        simp only [hlk, hwin, if_pos] at hfalse
        exact absurd hfalse (by decide)
      · simpa [hlk, hwin, if_neg] using hrec

/-- C5 witness: the three quantified parts of `isDuplicate_spec`
instantiated at concrete deduper states and events. -/
theorem isDuplicate_spec_witness :
    (isDuplicate newEventDeduper (evSuccessAt 0) = (false, newEventDeduper)) ∧
    ((isDuplicate ⟨[("9.9.9.9:22:bob", 0)]⟩ (evFailAt 2000000000)).1 = true ↔
      ∃ t, lookupKey [("9.9.9.9:22:bob", 0)] (dedupeKey (evFailAt 2000000000)) = some t ∧
        (evFailAt 2000000000).timestamp - t < eventDedupeWindow) ∧
    (lookupKey ((isDuplicate newEventDeduper (evFailAt 7)).2).seen
      (dedupeKey (evFailAt 7)) = some 7) :=
  ⟨isDuplicate_spec.1 newEventDeduper (evSuccessAt 0) (by decide),
   isDuplicate_spec.2.1 ⟨[("9.9.9.9:22:bob", 0)]⟩ (evFailAt 2000000000) (by decide),
   isDuplicate_spec.2.2.1 newEventDeduper (evFailAt 7) (by decide) (by decide)⟩

/-! ## Helper lemmas for the pattern-match proofs -/

theorem head_sat_cons {p : Char → Bool} {a : Char} {l : List Char} (h : p a = false) :
    ∀ c, ((a :: l).head? = some c) → p c = false := by
  intro c hc
  simp only [List.head?_cons, Option.some.injEq] at hc
  subst hc; exact h

theorem head_sat_portlit {p : Char → Bool} (h : p ' ' = false) (X : List Char) :
    ∀ c, ((" port ".data ++ X).head? = some c) → p c = false := by
  have hsp : " port ".data ++ X = ' ' :: ("port ".data ++ X) := rfl
  rw [hsp]
  exact head_sat_cons h

theorem head_notdig_of_headNotDigit {suffix : String} (hsuf : headNotDigit suffix = true) :
    ∀ c, (suffix.data.head? = some c) → isDig c = false := by
  intro c hc
  unfold headNotDigit at hsuf
  cases hs : suffix.data with
  | nil => rw [hs] at hc; cases hc
  | cons a t =>
    rw [hs] at hc hsuf
    simp only [List.head?_cons, Option.some.injEq] at hc
    subst hc
    simpa using hsuf

/-- The shared `([^ ]+) port (\d+)` tail of the disconnect/closed
patterns succeeds on token-shaped input. -/
theorem matchClosedTail_pos {ip p : List Char} (sufD : List Char)
    (hip1 : ip ≠ []) (hip2 : ∀ c ∈ ip, nonSp c = true)
    (hp1 : p ≠ []) (hp2 : ∀ c ∈ p, isDig c = true)
    (hsuf : ∀ c, (sufD.head? = some c) → isDig c = false) :
    matchClosedTail (ip ++ (" port ".data ++ (p ++ sufD))) = some (ip, p) := by
  rw [matchClosedTail, scanTok_exact hip1 hip2 (head_sat_portlit (by decide) _)]
  simp only [Option.some_bind]
  rw [stripL_append]
  simp only [Option.some_bind]
  rw [scanTok_exact hp1 hp2 hsuf]
  rfl

/-- When the text after `Connection closed by ` is a space-free ip token
followed by ` port …`, the optional `authenticating user ` clause cannot
match (the regex engine falls through to the clause-free alternative). -/
theorem stripAuthUser_none {ip : List Char} (X : List Char)
    (hip2 : ∀ c ∈ ip, nonSp c = true) :
    stripL "authenticating user ".data (ip ++ (" port ".data ++ X)) = none := by
  cases hsl : stripL "authenticating user ".data (ip ++ (" port ".data ++ X)) with
  | none => rfl
  | some r =>
    exfalso
    have heq := stripL_eq_some_iff.mp hsl
    have hx : "authenticating user ".data ++ r =
        "authenticating".data ++ (' ' :: ("user ".data ++ r)) := rfl
    rw [hx] at heq
    have hns : ¬ nonSp ' ' = true := by decide
    have h1 := congrArg (List.takeWhile nonSp) heq
    rw [takeWhile_append_of_all _ hip2,
        takeWhile_eq_nil_of_head (head_sat_portlit (by decide) X),
        List.append_nil,
        takeWhile_append_of_all (u := "authenticating".data) _ (by decide),
        List.takeWhile_cons_of_neg hns, List.append_nil] at h1
    rw [h1] at heq
    have h2 := List.append_cancel_left heq
    have e1 : (" port ".data ++ X) = ' ' :: ("port ".data ++ X) := rfl
    rw [e1] at h2
    injection h2 with _ h2t
    have hh := congrArg List.head? h2t
    rw [head?_append_left (a := "port ".data) X (by decide),
        head?_append_left (a := "user ".data) r (by decide)] at hh
    have : ('p' : Char) = 'u' := Option.some.inj hh
    exact absurd this (by decide)

/-! ## C4: preauth classification -/

/-- C4: (a) every message of the form
`Disconnected from authenticating user <user> <ip> port <port>…` parses
to a `login_failed` event with method `preauth` and the captured user;
(b) every message containing `[preauth]` of the form
`Connection closed by authenticating user <user> <ip> port <port>…`
parses to `login_failed`/`preauth` with the captured user; and (c) the
clause-free form `Connection closed by <ip> port <port>…` (containing
`[preauth]`) parses to `login_failed`/`preauth` with user `unknown`.
The tokens are the shapes the regex captures accept (`\S+`, `[^ ]+`,
`\d+`) and the trailing text must not begin with a digit. -/
theorem parseJournalMessage_preauth_classification :
    (∀ (lk : String → String) (host : String) (ts : Int) (u ip p suffix : String),
      tokNonWS u → tokNonSp ip → tokDigits p → headNotDigit suffix = true →
      parseJournalMessage lk
        ("Disconnected from authenticating user " ++ u ++ " " ++ ip ++ " port " ++ p ++ suffix)
        host ts =
      some { type := EventLoginFailed, user := u, ip := stripAddress ip,
             method := "preauth", port := atoiClamp p.data, timestamp := ts,
             hostname := host, location := lk (stripAddress ip), logPath := "",
             message := "Disconnected from authenticating user " ++ u ++ " " ++ ip ++
               " port " ++ p ++ suffix }) ∧
    (∀ (lk : String → String) (host : String) (ts : Int) (u ip p suffix : String),
      tokNonWS u → tokNonSp ip → tokDigits p → headNotDigit suffix = true →
      containsSub ("Connection closed by authenticating user " ++ u ++ " " ++ ip ++
        " port " ++ p ++ suffix).data preauthTag = true →
      parseJournalMessage lk
        ("Connection closed by authenticating user " ++ u ++ " " ++ ip ++ " port " ++ p ++ suffix)
        host ts =
      some { type := EventLoginFailed, user := u, ip := stripAddress ip,
             method := "preauth", port := atoiClamp p.data, timestamp := ts,
             hostname := host, location := lk (stripAddress ip), logPath := "",
             message := "Connection closed by authenticating user " ++ u ++ " " ++ ip ++
               " port " ++ p ++ suffix }) ∧
    (∀ (lk : String → String) (host : String) (ts : Int) (ip p suffix : String),
      tokNonSp ip → tokDigits p → headNotDigit suffix = true →
      containsSub ("Connection closed by " ++ ip ++ " port " ++ p ++ suffix).data
        preauthTag = true →
      parseJournalMessage lk
        ("Connection closed by " ++ ip ++ " port " ++ p ++ suffix) host ts =
      some { type := EventLoginFailed, user := "unknown", ip := stripAddress ip,
             method := "preauth", port := atoiClamp p.data, timestamp := ts,
             hostname := host, location := lk (stripAddress ip), logPath := "",
             message := "Connection closed by " ++ ip ++ " port " ++ p ++ suffix }) := by
  refine ⟨?_, ?_, ?_⟩
  · -- (a) Disconnected from authenticating user
    intro lk host ts u ip p suffix hu hip hp hsuf
    obtain ⟨hu1, hu2⟩ := hu
    obtain ⟨hip1, hip2⟩ := hip
    obtain ⟨hp1, hp2⟩ := hp
    set M : String := "Disconnected from authenticating user " ++ u ++ " " ++ ip ++
      " port " ++ p ++ suffix with hMdef
    have hdata : M.data = "Disconnected from authenticating user ".data ++
        (u.data ++ (' ' :: (ip.data ++ (" port ".data ++ (p.data ++ suffix.data))))) := by
      simp [hMdef, String.data_append, List.append_assoc]
    have hne : M ≠ "" := by
      intro h
      rw [String.ext_iff, hdata] at h
      simp at h
    have hhead : M.data.head? = some 'D' := by rw [hdata]; rfl
    have hsucc : matchSuccess M.data = none := by
      rw [matchSuccess,
        stripL_none_of_head_ne (show ("Accepted ".data).head? = some 'A' from rfl)
          hhead (by decide)]
      rfl
    have hfail : matchFail M.data = none := by
      rw [matchFail,
        stripL_none_of_head_ne (show ("Failed ".data).head? = some 'F' from rfl)
          hhead (by decide)]
      rfl
    have hdisc : matchDisc M.data = some (u.data, ip.data, p.data) := by
      rw [matchDisc, hdata, stripL_append]
      simp only [Option.some_bind]
      rw [scanTok_exact hu1 hu2 (head_sat_cons (by decide))]
      simp only [Option.some_bind]
      have h3 : stripL " ".data
          (' ' :: (ip.data ++ (" port ".data ++ (p.data ++ suffix.data)))) =
          some (ip.data ++ (" port ".data ++ (p.data ++ suffix.data))) :=
        stripL_append [' '] _
      rw [h3]
      simp only [Option.some_bind]
      rw [scanTok_exact hip1 hip2 (head_sat_portlit (by decide) _)]
      simp only [Option.some_bind]
      rw [stripL_append]
      simp only [Option.some_bind]
      rw [scanTok_exact hp1 hp2 (head_notdig_of_headNotDigit hsuf)]
      rfl
    rw [parseJournalMessage, if_neg hne, hsucc, hfail, hdisc]
  · -- (b) Connection closed by authenticating user …
    intro lk host ts u ip p suffix hu hip hp hsuf hpre
    obtain ⟨hu1, hu2⟩ := hu
    obtain ⟨hip1, hip2⟩ := hip
    obtain ⟨hp1, hp2⟩ := hp
    set M : String := "Connection closed by authenticating user " ++ u ++ " " ++ ip ++
      " port " ++ p ++ suffix with hMdef
    have hlit : ("Connection closed by authenticating user " : String) =
        "Connection closed by " ++ "authenticating user " := rfl
    have hdata : M.data = "Connection closed by ".data ++
        ("authenticating user ".data ++
          (u.data ++ (' ' :: (ip.data ++ (" port ".data ++ (p.data ++ suffix.data)))))) := by
      rw [hMdef, hlit]
      simp [String.data_append, List.append_assoc]
    have hne : M ≠ "" := by
      intro h
      rw [String.ext_iff, hdata] at h
      simp at h
    have hhead : M.data.head? = some 'C' := by rw [hdata]; rfl
    have hsucc : matchSuccess M.data = none := by
      rw [matchSuccess,
        stripL_none_of_head_ne (show ("Accepted ".data).head? = some 'A' from rfl)
          hhead (by decide)]
      rfl
    have hfail : matchFail M.data = none := by
      rw [matchFail,
        stripL_none_of_head_ne (show ("Failed ".data).head? = some 'F' from rfl)
          hhead (by decide)]
      rfl
    have hdisc : matchDisc M.data = none := by
      rw [matchDisc,
        stripL_none_of_head_ne
          (show ("Disconnected from authenticating user ".data).head? = some 'D' from rfl)
          hhead (by decide)]
      rfl
    have hclosed : matchClosed M.data = some (some u.data, ip.data, p.data) := by
      rw [matchClosed, hdata, stripL_append]
      simp only [Option.some_bind]
      rw [stripL_append]
      simp only [Option.some_bind]
      rw [scanTok_exact hu1 hu2 (head_sat_cons (by decide))]
      simp only [Option.some_bind]
      have h3 : stripL " ".data
          (' ' :: (ip.data ++ (" port ".data ++ (p.data ++ suffix.data)))) =
          some (ip.data ++ (" port ".data ++ (p.data ++ suffix.data))) :=
        stripL_append [' '] _
      rw [h3]
      simp only [Option.some_bind]
      rw [matchClosedTail_pos suffix.data hip1 hip2 hp1 hp2
        (head_notdig_of_headNotDigit hsuf)]
      rfl
    rw [parseJournalMessage, if_neg hne, hsucc, hfail, hdisc, if_pos hpre, hclosed]
  · -- (c) Connection closed by <ip> port <port> (no user clause)
    intro lk host ts ip p suffix hip hp hsuf hpre
    obtain ⟨hip1, hip2⟩ := hip
    obtain ⟨hp1, hp2⟩ := hp
    set M : String := "Connection closed by " ++ ip ++ " port " ++ p ++ suffix with hMdef
    have hdata : M.data = "Connection closed by ".data ++
        (ip.data ++ (" port ".data ++ (p.data ++ suffix.data))) := by
      simp [hMdef, String.data_append, List.append_assoc]
    have hne : M ≠ "" := by
      intro h
      rw [String.ext_iff, hdata] at h
      simp at h
    have hhead : M.data.head? = some 'C' := by rw [hdata]; rfl
    have hsucc : matchSuccess M.data = none := by
      rw [matchSuccess,
        stripL_none_of_head_ne (show ("Accepted ".data).head? = some 'A' from rfl)
          hhead (by decide)]
      rfl
    have hfail : matchFail M.data = none := by
      rw [matchFail,
        stripL_none_of_head_ne (show ("Failed ".data).head? = some 'F' from rfl)
          hhead (by decide)]
      rfl
    have hdisc : matchDisc M.data = none := by
      rw [matchDisc,
        stripL_none_of_head_ne
          (show ("Disconnected from authenticating user ".data).head? = some 'D' from rfl)
          hhead (by decide)]
      rfl
    have hclosed : matchClosed M.data = some (none, ip.data, p.data) := by
      rw [matchClosed, hdata, stripL_append]
      simp only [Option.some_bind]
      rw [stripAuthUser_none _ hip2]
      simp only [Option.none_bind]
      rw [matchClosedTail_pos suffix.data hip1 hip2 hp1 hp2
        (head_notdig_of_headNotDigit hsuf)]
      rfl
    rw [parseJournalMessage, if_neg hne, hsucc, hfail, hdisc, if_pos hpre, hclosed]

/-- C4 witness: the three message families instantiated at the log lines
quoted in the source comments. -/
theorem parseJournalMessage_preauth_classification_witness :
    parseJournalMessage (fun _ => "") "Disconnected from authenticating user root 1.1.1.1 port 51819 [preauth]" "h" 3 =
      some { type := EventLoginFailed, user := "root", ip := stripAddress "1.1.1.1",
             method := "preauth", port := atoiClamp "51819".data, timestamp := 3,
             hostname := "h", location := "", logPath := "",
             message := "Disconnected from authenticating user root 1.1.1.1 port 51819 [preauth]" } ∧
    parseJournalMessage (fun _ => "") "Connection closed by authenticating user root 1.2.3.4 port 25124 [preauth]" "h" 3 =
      some { type := EventLoginFailed, user := "root", ip := stripAddress "1.2.3.4",
             method := "preauth", port := atoiClamp "25124".data, timestamp := 3,
             hostname := "h", location := "", logPath := "",
             message := "Connection closed by authenticating user root 1.2.3.4 port 25124 [preauth]" } ∧
    parseJournalMessage (fun _ => "") "Connection closed by 17.11.1.1 port 25124 [preauth]" "h" 3 =
      some { type := EventLoginFailed, user := "unknown", ip := stripAddress "17.11.1.1",
             method := "preauth", port := atoiClamp "25124".data, timestamp := 3,
             hostname := "h", location := "", logPath := "",
             message := "Connection closed by 17.11.1.1 port 25124 [preauth]" } :=
  ⟨parseJournalMessage_preauth_classification.1 (fun _ => "") "h" 3
      "root" "1.1.1.1" "51819" " [preauth]"
      (by decide) (by decide) (by decide) (by decide),
   parseJournalMessage_preauth_classification.2.1 (fun _ => "") "h" 3
      "root" "1.2.3.4" "25124" " [preauth]"
      (by decide) (by decide) (by decide) (by decide) (by decide),
   parseJournalMessage_preauth_classification.2.2 (fun _ => "") "h" 3
      "17.11.1.1" "25124" " [preauth]"
      (by decide) (by decide) (by decide) (by decide)⟩

/-! ## Digit and numeral lemmas (JSON encoder) -/

theorem hexVal_hexDig {d : Nat} (h : d < 16) : hexVal (hexDig d) = some d := by
  have hall : ∀ x : Fin 16, hexVal (hexDig x.val) = some x.val := by decide
  exact hall ⟨d, h⟩

theorem digitVal_hexDig {d : Nat} (h : d < 10) : digitVal (hexDig d) = d := by
  have hall : ∀ x : Fin 10, digitVal (hexDig x.val) = x.val := by decide
  exact hall ⟨d, h⟩

theorem isDig_hexDig {d : Nat} (h : d < 10) : isDig (hexDig d) = true := by
  have hall : ∀ x : Fin 10, isDig (hexDig x.val) = true := by decide
  exact hall ⟨d, h⟩

theorem natChars_ne_nil (n : Nat) : natChars n ≠ [] := by
  rw [natChars]
  split <;> simp

theorem natChars_all_digits (n : Nat) : ∀ c ∈ natChars n, isDig c = true := by
  induction n using Nat.strong_induction_on with
  | _ n ih =>
    rw [natChars]
    split
    · rename_i h
      intro c hc
      simp at hc
      subst hc
      exact isDig_hexDig h
    · rename_i h
      intro c hc
      rcases List.mem_append.mp hc with hin | hin
      · exact ih (n / 10) (Nat.div_lt_self (by omega) (by omega)) c hin
      · simp at hin
        subst hin
        exact isDig_hexDig (Nat.mod_lt _ (by omega))

theorem natChars_head_zero {n : Nat} (h : (natChars n).head? = some '0') : n = 0 := by
  induction n using Nat.strong_induction_on with
  | _ n ih =>
    rw [natChars] at h
    split at h
    · rename_i hn
      simp at h
      have hall : ∀ x : Fin 10, hexDig x.val = '0' → x.val = 0 := by decide
      exact hall ⟨n, hn⟩ h
    · rename_i hn
      rw [head?_append_left _ (natChars_ne_nil _)] at h
      have := ih (n / 10) (Nat.div_lt_self (by omega) (by omega)) h
      omega

theorem digitsToNat_natChars (n : Nat) : digitsToNat (natChars n) = n := by
  induction n using Nat.strong_induction_on with
  | _ n ih =>
    rw [natChars]
    split
    · rename_i h
      simp [digitsToNat, digitVal_hexDig h]
    · rename_i h
      have hrec := ih (n / 10) (Nat.div_lt_self (by omega) (by omega))
      unfold digitsToNat at hrec ⊢
      rw [List.foldl_append, hrec]
      simp [digitVal_hexDig (Nat.mod_lt n (show 0 < 10 by omega))]
      omega

/-! ## JSON string escape round-trip -/

theorem parseStrBody_esc (cs rest : List Char) :
    parseStrBody (escString cs ++ '"' :: rest) = some (cs, rest) := by
  induction cs with
  | nil =>
    show parseStrBody ('"' :: rest) = some ([], rest)
    rw [parseStrBody.eq_def]; simp
  | cons c cs ih =>
    show parseStrBody ((escChar c ++ escString cs) ++ '"' :: rest) = _
    rw [List.append_assoc]
    unfold escChar
    by_cases h1 : c = '"'
    · subst h1; simp only [if_pos rfl]
      rw [parseStrBody.eq_def]; simp [ih]
    rw [if_neg h1]
    by_cases h2 : c = '\\'
    · subst h2; simp only [if_pos rfl]
      rw [parseStrBody.eq_def]; simp [ih]
    rw [if_neg h2]
    by_cases h3 : c = '\n'
    · subst h3; simp only [if_pos rfl]
      rw [parseStrBody.eq_def]; simp [ih]
    rw [if_neg h3]
    by_cases h4 : c = '\r'
    · subst h4; simp only [if_pos rfl]
      rw [parseStrBody.eq_def]; simp [ih]
    rw [if_neg h4]
    by_cases h5 : c = '\t'
    · subst h5; simp only [if_pos rfl]
      rw [parseStrBody.eq_def]; simp [ih]
    rw [if_neg h5]
    by_cases h6 : c.toNat < 32
    · rw [if_pos h6]
      show parseStrBody ('\\' :: 'u' :: '0' :: '0' :: hexDig (c.toNat / 16) ::
        hexDig (c.toNat % 16) :: (escString cs ++ '"' :: rest)) = _
      rw [parseStrBody.eq_def]
      simp only [hexVal_hexDig (show c.toNat / 16 < 16 by omega),
        hexVal_hexDig (show c.toNat % 16 < 16 by omega),
        show hexVal '0' = some 0 by decide]
      simp only [show (('\\' : Char) = '"') = False by simp,
        show (('u' : Char) = '"') = False by simp,
        show (('u' : Char) = '\\') = False by simp,
        show (('u' : Char) = '/') = False by simp,
        show (('u' : Char) = 'b') = False by simp,
        show (('u' : Char) = 'f') = False by simp,
        show (('u' : Char) = 'n') = False by simp,
        show (('u' : Char) = 'r') = False by simp,
        show (('u' : Char) = 't') = False by simp,
        show (('u' : Char) = 'u') = True by simp,
        if_false, if_true, ite_false, ite_true]
      rw [show 0 * 4096 + 0 * 256 + c.toNat / 16 * 16 + c.toNat % 16 = c.toNat by omega]
      rw [if_pos (Or.inl (by omega))]
      rw [ih, Char.ofNat_toNat]
      rfl
    rw [if_neg h6]
    by_cases h7 : c = '<'
    · subst h7; simp only [if_pos rfl]
      rw [parseStrBody.eq_def]
      simp [ih, show hexVal '0' = some 0 by decide, show hexVal '3' = some 3 by decide,
        show hexVal 'c' = some 12 by decide, show Char.ofNat 60 = '<' by decide]
    rw [if_neg h7]
    by_cases h8 : c = '>'
    · subst h8; simp only [if_pos rfl]
      rw [parseStrBody.eq_def]
      simp [ih, show hexVal '0' = some 0 by decide, show hexVal '3' = some 3 by decide,
        show hexVal 'e' = some 14 by decide, show Char.ofNat 62 = '>' by decide]
    rw [if_neg h8]
    by_cases h9 : c = '&'
    · subst h9; simp only [if_pos rfl]
      rw [parseStrBody.eq_def]
      simp [ih, show hexVal '0' = some 0 by decide, show hexVal '2' = some 2 by decide,
        show hexVal '6' = some 6 by decide, show Char.ofNat 38 = '&' by decide]
    rw [if_neg h9]
    by_cases h10 : c.toNat = 8232
    · rw [if_pos h10]
      rw [parseStrBody.eq_def]
      simp [ih, show hexVal '2' = some 2 by decide, show hexVal '0' = some 0 by decide,
        show hexVal '8' = some 8 by decide]
      rw [← h10, Char.ofNat_toNat]
    rw [if_neg h10]
    by_cases h11 : c.toNat = 8233
    · rw [if_pos h11]
      rw [parseStrBody.eq_def]
      simp [ih, show hexVal '2' = some 2 by decide, show hexVal '0' = some 0 by decide,
        show hexVal '9' = some 9 by decide]
      rw [← h11, Char.ofNat_toNat]
    rw [if_neg h11]
    show parseStrBody (c :: (escString cs ++ '"' :: rest)) = _
    rw [parseStrBody.eq_def]
    simp [h1, h2, h6, ih]

/-! ## Number scanning roundtrip (for C3) -/

theorem natChars_no_leading_zero {m : Nat} {c0 : Char} {t0 : List Char}
    (h0 : natChars m = c0 :: t0) : ¬ (c0 = '0' ∧ 1 < (natChars m).length) := by
  rintro ⟨hc0, hlen⟩
  subst hc0
  have hz : m = 0 := natChars_head_zero (by rw [h0]; rfl)
  subst hz
  rw [show natChars 0 = ['0'] from by rw [natChars]; rfl] at hlen
  simp at hlen

theorem scanInt64Core_natChars (m : Nat) (rest : List Char)
    (hrest : ∀ c, rest.head? = some c →
      isDig c = false ∧ c ≠ '.' ∧ c ≠ 'e' ∧ c ≠ 'E')
    (neg : Bool)
    (hm : ¬ ((if neg then -(m : Int) else (m : Int)) < -(2 ^ 63) ∨
      (2 ^ 63 - 1 : Int) < (if neg then -(m : Int) else (m : Int)))) :
    scanInt64Core neg (natChars m ++ rest) =
      some (if neg then -(m : Int) else (m : Int), rest) := by
  obtain ⟨c0, t0, h0⟩ := List.exists_cons_of_ne_nil (natChars_ne_nil m)
  have hc0dig : isDig c0 = true := natChars_all_digits m c0 (by rw [h0]; simp)
  have htake : (natChars m ++ rest).takeWhile isDig = natChars m := by
    rw [takeWhile_append_of_all _ (natChars_all_digits _),
        takeWhile_eq_nil_of_head (fun c hc => (hrest c hc).1), List.append_nil]
  have hdrop : (natChars m ++ rest).dropWhile isDig = rest := by
    rw [dropWhile_append_of_all _ (natChars_all_digits _),
        dropWhile_eq_self_of_head (fun c hc => (hrest c hc).1)]
  unfold scanInt64Core
  rw [h0, List.cons_append]
  simp only [hc0dig, Bool.not_true, Bool.false_eq_true, if_false]
  rw [← List.cons_append, ← h0, htake, hdrop]
  rw [if_neg (natChars_no_leading_zero h0)]
  have hfin : (let n : Nat := digitsToNat (natChars m)
      let v : Int := if neg then -(n : Int) else (n : Int)
      if v < -(2 ^ 63) ∨ (2 ^ 63 - 1 : Int) < v then none
      else some (v, rest)) = some (if neg then -(m : Int) else (m : Int), rest) := by
    simp only [digitsToNat_natChars]
    rw [if_neg hm]
  cases rest with
  | nil => exact hfin
  | cons c t =>
    obtain ⟨hd, hdot, he, hE⟩ := hrest c rfl
    split
    · rename_i heq
      injection heq with h1 _
      exact (hdot h1).elim
    · rename_i heq
      injection heq with h1 _
      exact (he h1).elim
    · rename_i heq
      injection heq with h1 _
      exact (hE h1).elim
    · exact hfin

theorem scanInt64_intChars {v : Int} (hlo : -(2 ^ 63) ≤ v) (hhi : v ≤ 2 ^ 63 - 1)
    (rest : List Char)
    (hrest : ∀ c, rest.head? = some c →
      isDig c = false ∧ c ≠ '.' ∧ c ≠ 'e' ∧ c ≠ 'E') :
    scanInt64 (intChars v ++ rest) = some (v, rest) := by
  by_cases hneg : v < 0
  · have hv : intChars v = '-' :: natChars (-v).toNat := by
      unfold intChars; rw [if_pos hneg]
    rw [hv, List.cons_append]
    show scanInt64Core true (natChars (-v).toNat ++ rest) = some (v, rest)
    rw [scanInt64Core_natChars (-v).toNat rest hrest true
      (by rw [if_pos rfl]; push_cast [Int.toNat_of_nonneg (by omega : (0:Int) ≤ -v)]; omega)]
    rw [if_pos rfl, Int.toNat_of_nonneg (by omega : (0:Int) ≤ -v)]
    simp
  · have hv : intChars v = natChars v.toNat := by
      unfold intChars; rw [if_neg hneg]
    rw [hv]
    obtain ⟨c0, t0, h0⟩ := List.exists_cons_of_ne_nil (natChars_ne_nil v.toNat)
    have hc0dig : isDig c0 = true := natChars_all_digits _ c0 (by rw [h0]; simp)
    have hc0ne : c0 ≠ '-' := by
      intro he
      rw [he] at hc0dig
      simp [isDig] at hc0dig
    unfold scanInt64
    have hh : (natChars v.toNat ++ rest).head? = some c0 := by
      rw [head?_append_left _ (natChars_ne_nil _), h0]; rfl
    rw [hh]
    have hd : (decide ((some c0 : Option Char) = some '-')) = false := by
      simp [hc0ne]
    rw [hd]
    show scanInt64Core false (natChars v.toNat ++ rest) = some (v, rest)
    rw [scanInt64Core_natChars v.toNat rest hrest false
      (by rw [if_neg (by decide : ¬ (false = true))]
          push_cast [Int.toNat_of_nonneg (by omega : (0:Int) ≤ v)]; omega)]
    rw [if_neg (by decide : ¬ (false = true)), Int.toNat_of_nonneg (by omega : (0:Int) ≤ v)]

/-! ## C6: SMTP header-injection guard -/

/-- C6: whenever the To or the From address contains a CR or LF
character, `EmailNotifier.Send` returns the CR/LF validation error with
an empty network trace — in particular no `dial` (TCP connect) action is
ever performed. -/
theorem emailSend_crlf_guard :
    ∀ (e : EmailNotifier) (net : SmtpNet) (event : LoginEvent),
      hasCRLF e.To = true ∨ hasCRLF e.From = true →
      EmailNotifierSend e net event =
        ([], Except.error "smtp: invalid line contains CR/LF") := by
  intro e net event h
  unfold EmailNotifierSend sendMailWithTimeout validateSMTPLine
  cases hf : hasCRLF e.From with
  | true => simp [hf]
  | false =>
    have ht : hasCRLF e.To = true := by
      rcases h with h | h
      · exact h
      · rw [h] at hf; cases hf
    simp [hf, ht]

/-- C6 witness: a To address with an injected CRLF sequence makes `Send`
fail with no network action, on a live network oracle. -/
theorem emailSend_crlf_guard_witness :
    hasCRLF crlfNotifier.To = true ∧
    EmailNotifierSend crlfNotifier okNet (evSuccessAt 0) =
      ([], Except.error "smtp: invalid line contains CR/LF") :=
  ⟨by decide, emailSend_crlf_guard crlfNotifier okNet (evSuccessAt 0) (Or.inl (by decide))⟩

/-! ## C7: curl tokenizer -/

/-- C7 counterexample: on the spec's sample command the tokenizer yields
the five tokens `curl`, `-H`, `X: y`, `a b`, `http://x` — not four. -/
theorem tokenize_sample_counterexample :
    tokenize sampleCurlCmd = Except.ok ["curl", "-H", "X: y", "a b", "http://x"] ∧
    Except.map List.length (tokenize sampleCurlCmd) = Except.ok 5 ∧ (5 : Nat) ≠ 4 := by
  refine ⟨by decide, by decide, by decide⟩

/-- C7 (amended): the tokenizer respects single and double quotes and
backslash escapes and fails on an unclosed quote; the spec's sample
yields five tokens (the leading `curl` included), preserving quoted
spaces. -/
theorem tokenize_amended_behaviour :
    tokenize sampleCurlCmd = Except.ok ["curl", "-H", "X: y", "a b", "http://x"] ∧
    tokenize "curl -d \"unclosed" = Except.error "unclosed quote in curl command" ∧
    tokenize "a\\ b" = Except.ok ["a b"] ∧
    tokenize ("curl -d " ++ sq ++ "\x7b\"key\": \"value\"\x7d" ++ sq ++
        " https://example.com") =
      Except.ok ["curl", "-d", "\x7b\"key\": \"value\"\x7d", "https://example.com"] := by
  refine ⟨by decide, by decide, by decide, by decide⟩

/-! ## C8: curl notifier timeout -/

/-- C8: `NewCurlNotifier` builds and stores a 10-second-timeout
`http.Client`, but the request actually issued by `Send` (through
`CurlRequest.Execute`) is run on `http.DefaultClient`, whose timeout is
unset — so the per-event HTTP request runs with no total timeout at
all.  Evaluated at the failing input `curl http://x` with a pass-through
template oracle. -/
theorem curlNotifier_request_has_no_timeout :
    NewCurlNotifier "curl http://x" = Except.ok
      { curlCmd := "curl http://x",
        parsedCurl := { method := "GET", url := "http://x", headers := [], body := "" },
        httpClient := { timeout := some 10000000000 } } ∧
    CurlNotifierSend
      { curlCmd := "curl http://x",
        parsedCurl := { method := "GET", url := "http://x", headers := [], body := "" },
        httpClient := { timeout := some 10000000000 } } Except.ok =
      Except.ok { client := httpDefaultClient, method := "GET", url := "http://x",
                  headers := [], body := "" } ∧
    httpDefaultClient.timeout = none := by
  refine ⟨by decide, by decide, rfl⟩

/-! ## C10: silent-drop cases of the dispatcher -/

/-- C10: `dispatchEvent` returns success with no notifier invoked when
the configuration file is missing, when notification is not enabled,
when `loadConfig` yields a nil configuration, and when no channel is
enabled. -/
theorem dispatchEvent_silent_success_cases :
    ∀ (send : ChannelConfig → Except String Unit),
      dispatchEvent .errNotFound send = ([], Except.ok ()) ∧
      dispatchEvent .errNotEnabled send = ([], Except.ok ()) ∧
      dispatchEvent (.ok none) send = ([], Except.ok ()) ∧
      ∀ cfg, GetEnabledChannels cfg = [] →
        dispatchEvent (.ok (some cfg)) send = ([], Except.ok ()) := by
  intro send
  refine ⟨rfl, rfl, rfl, ?_⟩
  intro cfg hc
  simp [dispatchEvent, hc]

/-- C10 witness: a configuration holding one disabled channel is
silently dropped even when every send would fail. -/
theorem dispatchEvent_silent_success_cases_witness :
    GetEnabledChannels { channels := [disabledCurlChannel] } = [] ∧
    dispatchEvent (.ok (some { channels := [disabledCurlChannel] })) alwaysFailSend =
      ([], Except.ok ()) ∧
    dispatchEvent .errNotFound alwaysFailSend = ([], Except.ok ()) :=
  ⟨by decide,
   (dispatchEvent_silent_success_cases alwaysFailSend).2.2.2
     { channels := [disabledCurlChannel] } (by decide),
   (dispatchEvent_silent_success_cases alwaysFailSend).1⟩

/-! ## Capture-shape lemmas for the journal-message matchers -/

theorem scanTok_some_ne {p : Char → Bool} {s : List Char} {tr : List Char × List Char}
    (h : scanTok p s = some tr) : tr.1 ≠ [] := by
  unfold scanTok at h
  split at h
  · cases h
  · rename_i hne
    injection h with h
    subst h
    simpa [List.isEmpty_iff] using hne

theorem matchSuccess_user_ne {s : List Char} {cap : List Char × List Char × List Char × List Char}
    (h : matchSuccess s = some cap) : cap.2.1 ≠ [] := by
  unfold matchSuccess at h
  simp only [Option.bind_eq_some, Option.map_eq_some'] at h
  obtain ⟨r1, h1, mt, hmt, r3, h3, ut, hut, r5, h5, it, hit, r7, h7, dt, hdt, hcap⟩ := h
  subst hcap
  simpa using scanTok_some_ne hut
theorem matchFailTail_user_ne {m r : List Char}
    {cap : List Char × List Char × List Char × List Char}
    (h : matchFailTail m r = some cap) : cap.2.1 ≠ [] := by
  unfold matchFailTail at h
  simp only [Option.bind_eq_some, Option.map_eq_some'] at h
  obtain ⟨ut, hut, r5, h5, it, hit, r7, h7, dt, hdt, hcap⟩ := h
  subst hcap
  simpa using scanTok_some_ne hut

theorem matchFail_user_ne {s : List Char} {cap : List Char × List Char × List Char × List Char}
    (h : matchFail s = some cap) : cap.2.1 ≠ [] := by
  unfold matchFail at h
  simp only [Option.bind_eq_some] at h
  obtain ⟨r1, h1, mt, hmt, r3, h3, hrest⟩ := h
  split at hrest
  · split at hrest
    · rename_i hc
      injection hrest with hrest
      subst hrest
      exact matchFailTail_user_ne hc
    · exact matchFailTail_user_ne hrest
  · exact matchFailTail_user_ne hrest

theorem matchDisc_user_ne {s : List Char} {cap : List Char × List Char × List Char}
    (h : matchDisc s = some cap) : cap.1 ≠ [] := by
  unfold matchDisc at h
  simp only [Option.bind_eq_some, Option.map_eq_some'] at h
  obtain ⟨r1, h1, ut, hut, r3, h3, it, hit, r5, h5, dt, hdt, hcap⟩ := h
  subst hcap
  simpa using scanTok_some_ne hut

theorem matchClosed_user_ne {s : List Char} {cap : Option (List Char) × List Char × List Char}
    {u : List Char} (h : matchClosed s = some cap) (hcu : cap.1 = some u) : u ≠ [] := by
  unfold matchClosed at h
  simp only [Option.bind_eq_some] at h
  obtain ⟨r, hr, hmatch⟩ := h
  cases hW : (stripL "authenticating user ".data r).bind (fun r1 =>
      (scanTok nonWS r1).bind fun ut =>
      (stripL " ".data ut.2).bind fun r2 =>
      (matchClosedTail r2).map fun ipd => (ut.1, ipd.1, ipd.2)) with
  | some trip =>
    obtain ⟨u0, ip0, d0⟩ := trip
    rw [hW] at hmatch
    injection hmatch with hmatch
    subst hmatch
    simp only [Option.bind_eq_some, Option.map_eq_some'] at hW
    obtain ⟨r1, h1, ut, hut, r2, h2, ipd, hipd, heq⟩ := hW
    injection heq with e1 e2
    simp only [] at hcu
    injection hcu with hcu
    subst hcu
    rw [← e1]
    exact scanTok_some_ne hut
  | none =>
    rw [hW] at hmatch
    simp only [Option.map_eq_some'] at hmatch
    obtain ⟨ipd, hipd, hcap⟩ := hmatch
    subst hcap
    simp at hcu
theorem mk_ne_empty {u : List Char} (hu : u ≠ []) : (⟨u⟩ : String) ≠ "" := by
  intro he
  exact hu (congrArg String.data he)

theorem parseJournalMessage_some_props {lk : String → String} {msg host : String} {ts : Int}
    {ev : LoginEvent} (h : parseJournalMessage lk msg host ts = some ev) :
    ev.user ≠ "" ∧ (ev.type = EventLoginSuccess ∨ ev.type = EventLoginFailed) := by
  unfold parseJournalMessage at h
  split at h
  · cases h
  cases hms : matchSuccess msg.data with
  | some cap =>
    rw [hms] at h
    obtain ⟨m, u, ip, d⟩ := cap
    injection h with h
    subst h
    exact ⟨mk_ne_empty (by simpa using matchSuccess_user_ne hms), Or.inl rfl⟩
  | none =>
  simp only [hms] at h
  cases hmf : matchFail msg.data with
  | some cap =>
    rw [hmf] at h
    obtain ⟨m, u, ip, d⟩ := cap
    injection h with h
    subst h
    exact ⟨mk_ne_empty (by simpa using matchFail_user_ne hmf), Or.inr rfl⟩
  | none =>
  simp only [hmf] at h
  cases hmd : matchDisc msg.data with
  | some cap =>
    rw [hmd] at h
    obtain ⟨u, ip, d⟩ := cap
    injection h with h
    subst h
    exact ⟨mk_ne_empty (by simpa using matchDisc_user_ne hmd), Or.inr rfl⟩
  | none =>
  simp only [hmd] at h
  split at h
  · cases hmc : matchClosed msg.data with
    | some cap =>
      rw [hmc] at h
      obtain ⟨uo, ip, d⟩ := cap
      injection h with h
      subst h
      refine ⟨?_, Or.inr rfl⟩
      cases huo : uo with
      | some u0 =>
        simp only [huo]
        exact mk_ne_empty (matchClosed_user_ne hmc (by simp [huo]))
      | none => simp [huo]
    | none =>
      rw [hmc] at h
      cases h
  · cases h
/-! ## C1 (amended): field guarantees of the parser -/

/-- C1 (amended): every event the parser returns has a non-empty user
and a type in the allowed set (for both `parseJournalMessage` and
`parseAuthLogLine`); and a message none of the four patterns matches
yields no event.  (The ip is the captured token after `stripAddress`
and the port the unchecked `Atoi` value; see the counterexample.) -/
theorem parse_amended_guarantees :
    (∀ (lk : String → String) (msg host : String) (ts : Int) (ev : LoginEvent),
      parseJournalMessage lk msg host ts = some ev →
      ev.user ≠ "" ∧ (ev.type = EventLoginSuccess ∨ ev.type = EventLoginFailed)) ∧
    (∀ (lk : String → String) (nowNanos nowYear : Int) (line : String) (ev : LoginEvent),
      parseAuthLogLine lk nowNanos nowYear line = some ev →
      ev.user ≠ "" ∧ (ev.type = EventLoginSuccess ∨ ev.type = EventLoginFailed)) ∧
    (∀ (lk : String → String) (msg host : String) (ts : Int),
      matchSuccess msg.data = none → matchFail msg.data = none →
      matchDisc msg.data = none → matchClosed msg.data = none →
      parseJournalMessage lk msg host ts = none) := by
  refine ⟨fun lk msg host ts ev h => parseJournalMessage_some_props h, ?_, ?_⟩
  · intro lk nowN nowY line ev h
    unfold parseAuthLogLine at h
    split at h
    · cases h
    cases hsy : matchSyslog line.data with
    | none => simp only [hsy] at h; cases h
    | some q =>
      obtain ⟨mn, day, clock, hostD, payload⟩ := q
      simp only [hsy] at h
      cases hpl : parseInLocShanghai mn day clock.1 clock.2.1 clock.2.2 nowY with
      | none => simp only [hpl] at h; cases h
      | some ts0 =>
        simp only [hpl] at h
        exact parseJournalMessage_some_props h
  · intro lk msg host ts h1 h2 h3 h4
    by_cases hmsg : msg = ""
    · simp [parseJournalMessage, hmsg]
    · simp [parseJournalMessage, hmsg, h1, h2, h3, h4]

/-- C1 witness: the amended guarantees applied to a matched journal
message, a matched syslog line, and a non-matching line. -/
theorem parse_amended_guarantees_witness :
    (evAccepted.user ≠ "" ∧
      (evAccepted.type = EventLoginSuccess ∨ evAccepted.type = EventLoginFailed)) ∧
    (evJan2.user ≠ "" ∧
      (evJan2.type = EventLoginSuccess ∨ evJan2.type = EventLoginFailed)) ∧
    parseJournalMessage (fun _ => "") "random noise" "h" 0 = none :=
  ⟨parse_amended_guarantees.1 (fun _ => "")
      "Accepted publickey for root from 1.2.3.4 port 5555 ssh2" "h" 0 evAccepted
      (by decide),
   parse_amended_guarantees.2.1 (fun _ => "") 1735700000000000000 2025
      "Jan 2 10:00:00 h sshd[1]: Failed password for bob from 9.9.9.9 port 22 ssh2"
      evJan2 (by decide),
   parse_amended_guarantees.2.2 (fun _ => "") "random noise" "h" 0
      (by decide) (by decide) (by decide) (by decide)⟩

/-! ## C1 counterexample -/

/-- C1 counterexample: the message
`Accepted password for root from ::ffff: port 99999` is matched by the
success pattern, yet the returned event's port is 99999 (outside
[0, 65535] — the parser performs no range check) and its ip is the empty
string (the matched token `::ffff:` strips to nothing). -/
theorem parseJournalMessage_port_range_counterexample :
    parseJournalMessage (fun _ => "") "Accepted password for root from ::ffff: port 99999" "h" 0 =
      some { type := "login_success", user := "root", ip := "", method := "password",
             port := 99999, timestamp := 0, hostname := "h", location := "",
             logPath := "", message := "Accepted password for root from ::ffff: port 99999" } ∧
    ¬ (99999 : Nat) ≤ 65535 ∧ ("" : String) = "" := by
  refine ⟨by decide, by decide, rfl⟩

/-! ## C3 / C9 / C2: cursor store persistence -/

theorem isJsonWs_of_isDig {c : Char} (h : isDig c = true) : isJsonWs c = false := by
  cases hb : isJsonWs c
  · rfl
  · exfalso
    simp only [isJsonWs, Bool.or_eq_true, decide_eq_true_eq] at hb
    rcases hb with ((h1 | h1) | h1) | h1 <;> subst h1 <;> exact absurd h (by decide)

theorem skipWs_intChars_append (v : Int) (rest : List Char) :
    skipWs (intChars v ++ rest) = intChars v ++ rest := by
  by_cases hn : v < 0
  · rw [show intChars v = '-' :: natChars (-v).toNat from by unfold intChars; rw [if_pos hn]]
    rfl
  · rw [show intChars v = natChars v.toNat from by unfold intChars; rw [if_neg hn]]
    obtain ⟨c0, t0, h0⟩ := List.exists_cons_of_ne_nil (natChars_ne_nil v.toNat)
    have hd : isDig c0 = true := natChars_all_digits _ c0 (by rw [h0]; simp)
    rw [h0]
    simp [skipWs, List.dropWhile_cons, isJsonWs_of_isDig hd]

theorem offsTail_head_ok (tl : List (String × Int)) (outer : List Char) :
    ∀ c, (offsTail tl ++ outer).head? = some c →
      isDig c = false ∧ c ≠ '.' ∧ c ≠ 'e' ∧ c ≠ 'E' := by
  cases tl with
  | nil => intro c hc; simp [offsTail] at hc; subst hc; refine ⟨by decide, by decide, by decide, by decide⟩
  | cons hd tl2 => intro c hc; simp [offsTail] at hc; subst hc; refine ⟨by decide, by decide, by decide, by decide⟩

theorem offsTail_length_lb (tl : List (String × Int)) : tl.length ≤ (offsTail tl).length := by
  induction tl with
  | nil => simp [offsTail]
  | cons hd tl2 ih =>
    cases hd with
    | mk k v => simp [offsTail]; omega

theorem setKey_of_not_found {l : List (String × Int)} {k : String} (v : Int)
    (h : l.any (fun kv => kv.1 = k) = false) : setKey l k v = l ++ [(k, v)] := by
  simp only [setKey, h]
  rfl

theorem setKeyAll_append_of_fresh (l : List (String × Int)) :
    ∀ acc : List (String × Int),
    (∀ kv ∈ l, acc.any (fun x => x.1 = kv.1) = false) →
    l.Pairwise (fun a b => a.1 ≠ b.1) →
    setKeyAll acc l = acc ++ l := by
  induction l with
  | nil => intro acc _ _; simp [setKeyAll]
  | cons hd tl ih =>
    intro acc hdis hnod
    have h1 : setKeyAll acc (hd :: tl) = setKeyAll (setKey acc hd.1 hd.2) tl := by
      simp [setKeyAll]
    rw [h1, setKey_of_not_found hd.2 (hdis hd (by simp))]
    rw [ih (acc ++ [(hd.1, hd.2)]) ?_ (List.Pairwise.sublist (List.sublist_cons_self hd tl) hnod)]
    · simp
    · intro kv hkv
      rw [List.any_append]
      have h2 : acc.any (fun x => x.1 = kv.1) = false := hdis kv (by simp [hkv])
      have h3 : hd.1 ≠ kv.1 := (List.pairwise_cons.mp hnod).1 kv hkv
      simp [h2, h3]

theorem charListLtB_irrefl (a : List Char) : charListLtB a a = false := by
  induction a with
  | nil => rfl
  | cons c t ih => simp [charListLtB, ih]

theorem pairwise_ne_of_canonical {l : List (String × Int)} (h : canonicalOffsets l) :
    l.Pairwise (fun a b => a.1 ≠ b.1) := by
  refine h.1.imp ?_
  intro a b hlt heq
  rw [heq] at hlt
  rw [charListLtB_irrefl] at hlt
  exact Bool.false_ne_true hlt

theorem skipWs_colon (X : List Char) : skipWs (':' :: X) = ':' :: X := rfl

theorem decodeOffs_step (k : String) (v : Int) (tl acc : List (String × Int))
    (outer : List Char) (first : Bool) (fuel : Nat)
    (hlo : -(2 ^ 63) ≤ v) (hhi : v ≤ 2 ^ 63 - 1) :
    decodeOffsMembers (fuel + 1) acc (offsBody k v tl ++ outer) first =
      match tl with
      | [] => some (setKey acc k v, outer)
      | (k2, v2) :: tl2 =>
        decodeOffsMembers fuel (setKey acc k v) (offsBody k2 v2 tl2 ++ outer) false := by
  have hskip : skipWs (offsBody k v tl ++ outer) =
      '"' :: (escString k.data ++ '"' :: ':' :: ' ' :: (intChars v ++ (offsTail tl ++ outer))) := by
    rw [show offsBody k v tl ++ outer =
      '\n' :: ' ' :: ' ' :: ' ' :: ' ' :: '"' ::
        (escString k.data ++ '"' :: ':' :: ' ' :: (intChars v ++ (offsTail tl ++ outer))) from by
      simp [offsBody, offsEntry, qstr, List.append_assoc]]
    rfl
  have hint : scanInt64 (skipWs (' ' :: (intChars v ++ (offsTail tl ++ outer)))) =
      some (v, offsTail tl ++ outer) := by
    show scanInt64 (skipWs (intChars v ++ (offsTail tl ++ outer))) = _
    rw [skipWs_intChars_append]
    exact scanInt64_intChars hlo hhi _ (offsTail_head_ok tl outer)
  simp only [decodeOffsMembers, hskip]
  rw [if_neg (by rintro ⟨h, -⟩; exact absurd h (by decide)), if_pos trivial]
  simp only [parseStrBody_esc, skipWs_colon, hint]
  cases tl with
  | nil => rfl
  | cons hd tl2 =>
    obtain ⟨k2, v2⟩ := hd
    rfl

theorem decodeOffs_loop (tl : List (String × Int)) :
    ∀ (k : String) (v : Int),
    (∀ kv ∈ (k, v) :: tl, -(2 ^ 63) ≤ kv.2 ∧ kv.2 ≤ 2 ^ 63 - 1) →
    ∀ fuel : Nat, tl.length < fuel →
    ∀ (acc : List (String × Int)) (outer : List Char) (first : Bool),
    decodeOffsMembers fuel acc (offsBody k v tl ++ outer) first =
      some (setKeyAll acc ((k, v) :: tl), outer) := by
  induction tl with
  | nil =>
    intro k v hr fuel hf acc outer first
    obtain ⟨f, rfl⟩ : ∃ f, fuel = f + 1 := ⟨fuel - 1, by omega⟩
    rw [decodeOffs_step k v [] acc outer first f (hr (k, v) (by simp)).1 (hr (k, v) (by simp)).2]
    simp [setKeyAll]
  | cons hd tl2 ih =>
    intro k v hr fuel hf acc outer first
    obtain ⟨k2, v2⟩ := hd
    obtain ⟨f, rfl⟩ : ∃ f, fuel = f + 1 := ⟨fuel - 1, by omega⟩
    rw [decodeOffs_step k v ((k2, v2) :: tl2) acc outer first f
      (hr (k, v) (by simp)).1 (hr (k, v) (by simp)).2]
    show decodeOffsMembers f (setKey acc k v) (offsBody k2 v2 tl2 ++ outer) false = _
    rw [ih k2 v2 (fun kv hkv => hr kv (by simp at hkv ⊢; tauto)) f (by simp at hf; omega)]
    simp [setKeyAll]

theorem decodeTop_offs_round (st : SourceState) (hoffs : st.fileOffsets = none)
    (k : String) (v : Int) (tl : List (String × Int))
    (hr : ∀ kv ∈ (k, v) :: tl, -(2 ^ 63) ≤ kv.2 ∧ kv.2 ≤ 2 ^ 63 - 1)
    (f : Nat) (hf : tl.length + 1 < f) (first : Bool) :
    decodeTopMembers f st
      ('\n' :: ' ' :: ' ' :: '"' :: (escString "file_offsets".data ++ '"' :: ':' :: ' ' ::
        (lbrace :: (offsBody k v tl ++ ['\n', rbrace])))) first =
      some { st with fileOffsets := some (setKeyAll [] ((k, v) :: tl)) } := by
  obtain ⟨f2, rfl⟩ : ∃ f2, f = f2 + 1 := ⟨f - 1, by omega⟩
  have hskip : skipWs
      ('\n' :: ' ' :: ' ' :: '"' :: (escString "file_offsets".data ++ '"' :: ':' :: ' ' ::
        (lbrace :: (offsBody k v tl ++ ['\n', rbrace])))) =
      '"' :: (escString "file_offsets".data ++ '"' :: ':' :: ' ' ::
        (lbrace :: (offsBody k v tl ++ ['\n', rbrace]))) := rfl
  have h3 : skipWs (' ' :: (lbrace :: (offsBody k v tl ++ ['\n', rbrace]))) =
      lbrace :: (offsBody k v tl ++ ['\n', rbrace]) := rfl
  have hk1 : ((⟨"file_offsets".data⟩ : String) = "journal_cursor") = False :=
    eq_false (by decide)
  have hk2 : ((⟨"file_offsets".data⟩ : String) = "file_offsets") = True := eq_true rfl
  simp only [decodeTopMembers, hskip]
  rw [if_neg (by rintro ⟨h, -⟩; exact absurd h (by decide)), if_pos trivial]
  simp only [parseStrBody_esc, skipWs_colon, h3, hk1, hk2, ite_true, ite_false, hoffs,
    Option.getD_none]
  rw [decodeOffs_loop tl k v hr f2 (by omega) [] ['\n', rbrace] true]
  rfl

theorem decodeTop_cursor_end (st : SourceState) (c : String) (f1 : Nat) (first : Bool) :
    decodeTopMembers (f1 + 1) st
      ('\n' :: ' ' :: ' ' :: '"' :: (escString "journal_cursor".data ++ '"' :: ':' :: ' ' :: '"' ::
        (escString c.data ++ '"' :: ['\n', rbrace]))) first =
      some { st with journalCursor := c } := by
  have hskip : skipWs
      ('\n' :: ' ' :: ' ' :: '"' :: (escString "journal_cursor".data ++ '"' :: ':' :: ' ' :: '"' ::
        (escString c.data ++ '"' :: ['\n', rbrace]))) =
      '"' :: (escString "journal_cursor".data ++ '"' :: ':' :: ' ' :: '"' ::
        (escString c.data ++ '"' :: ['\n', rbrace])) := rfl
  have h3 : skipWs (' ' :: '"' :: (escString c.data ++ '"' :: ['\n', rbrace])) =
      '"' :: (escString c.data ++ '"' :: ['\n', rbrace]) := rfl
  have hk1 : ((⟨"journal_cursor".data⟩ : String) = "journal_cursor") = True := eq_true rfl
  simp only [decodeTopMembers, hskip]
  rw [if_neg (by rintro ⟨h, -⟩; exact absurd h (by decide)), if_pos trivial]
  simp only [parseStrBody_esc, skipWs_colon, h3, hk1, ite_true]
  rfl

theorem decodeTop_cursor_then (st : SourceState) (c : String) (CONT : List Char)
    (f1 : Nat) (first : Bool) :
    decodeTopMembers (f1 + 1) st
      ('\n' :: ' ' :: ' ' :: '"' :: (escString "journal_cursor".data ++ '"' :: ':' :: ' ' :: '"' ::
        (escString c.data ++ '"' :: ',' :: CONT))) first =
      decodeTopMembers f1 { st with journalCursor := c } CONT false := by
  have hskip : skipWs
      ('\n' :: ' ' :: ' ' :: '"' :: (escString "journal_cursor".data ++ '"' :: ':' :: ' ' :: '"' ::
        (escString c.data ++ '"' :: ',' :: CONT))) =
      '"' :: (escString "journal_cursor".data ++ '"' :: ':' :: ' ' :: '"' ::
        (escString c.data ++ '"' :: ',' :: CONT)) := rfl
  have h3 : skipWs (' ' :: '"' :: (escString c.data ++ '"' :: ',' :: CONT)) =
      '"' :: (escString c.data ++ '"' :: ',' :: CONT) := rfl
  have hk1 : ((⟨"journal_cursor".data⟩ : String) = "journal_cursor") = True := eq_true rfl
  simp only [decodeTopMembers, hskip]
  rw [if_neg (by rintro ⟨h, -⟩; exact absurd h (by decide)), if_pos trivial]
  simp only [parseStrBody_esc, skipWs_colon, h3, hk1, ite_true]
  rfl

theorem unmarshalSS_marshal (c : String) (offs : List (String × Int))
    (hcan : canonicalOffsets offs) :
    unmarshalSS ⟨marshalChars c offs⟩ =
      some { journalCursor := c,
             fileOffsets := if offs = [] then none else some offs } := by
  have hfold : setKeyAll [] offs = offs := by
    have := setKeyAll_append_of_fresh offs [] (fun kv _ => rfl) (pairwise_ne_of_canonical hcan)
    simpa using this
  cases offs with
  | nil =>
    rw [if_pos rfl]
    by_cases hc : c = ""
    · subst hc; rfl
    · have hsh : marshalChars c [] =
          lbrace :: ('\n' :: ' ' :: ' ' :: '"' ::
            (escString "journal_cursor".data ++ '"' :: ':' :: ' ' :: '"' ::
              (escString c.data ++ '"' :: ['\n', rbrace]))) := by
        simp [marshalChars, hc, qstr, List.append_assoc]
      have h1 : skipWs (marshalChars c []) =
          lbrace :: ('\n' :: ' ' :: ' ' :: '"' ::
            (escString "journal_cursor".data ++ '"' :: ':' :: ' ' :: '"' ::
              (escString c.data ++ '"' :: ['\n', rbrace]))) := by
        rw [hsh]; rfl
      simp only [unmarshalSS, h1]
      rw [if_pos trivial]
      rw [show ('j' :: 'o' :: 'u' :: 'r' :: 'n' :: 'a' :: 'l' :: '_' :: 'c' :: 'u' :: 'r' :: 's' :: 'o' :: 'r' :: ([] : List Char)) = "journal_cursor".data from rfl]
      rw [decodeTop_cursor_end { journalCursor := "", fileOffsets := none } c _ true]
  | cons hd tl =>
    obtain ⟨k, v⟩ := hd
    rw [if_neg (by simp)]
    have hr : ∀ kv ∈ (k, v) :: tl, -(2 ^ 63) ≤ kv.2 ∧ kv.2 ≤ 2 ^ 63 - 1 := hcan.2
    have hlb := offsTail_length_lb tl
    by_cases hc : c = ""
    · subst hc
      have hsh : marshalChars "" ((k, v) :: tl) =
          lbrace :: ('\n' :: ' ' :: ' ' :: '"' ::
            (escString "file_offsets".data ++ '"' :: ':' :: ' ' ::
              (lbrace :: (offsBody k v tl ++ ['\n', rbrace])))) := by
        simp [marshalChars, qstr, offsObj, offsBody, List.append_assoc]
      have h1 : skipWs (marshalChars "" ((k, v) :: tl)) =
          lbrace :: ('\n' :: ' ' :: ' ' :: '"' ::
            (escString "file_offsets".data ++ '"' :: ':' :: ' ' ::
              (lbrace :: (offsBody k v tl ++ ['\n', rbrace])))) := by
        rw [hsh]; rfl
      have hlen : tl.length + 1 < (marshalChars "" ((k, v) :: tl)).length + 1 := by
        rw [hsh]
        simp only [offsBody, offsEntry, List.length_cons, List.length_append]
        omega
      simp only [unmarshalSS, h1]
      rw [if_pos trivial]
      rw [show ('f' :: 'i' :: 'l' :: 'e' :: '_' :: 'o' :: 'f' :: 'f' :: 's' :: 'e' :: 't' :: 's' :: ([] : List Char)) = "file_offsets".data from rfl]
      rw [decodeTop_offs_round { journalCursor := "", fileOffsets := none } rfl k v tl hr
        ((marshalChars "" ((k, v) :: tl)).length + 1) hlen true]
      rw [hfold]
    · have hsh : marshalChars c ((k, v) :: tl) =
          lbrace :: ('\n' :: ' ' :: ' ' :: '"' ::
            (escString "journal_cursor".data ++ '"' :: ':' :: ' ' :: '"' ::
              (escString c.data ++ '"' :: ',' ::
                ('\n' :: ' ' :: ' ' :: '"' ::
                  (escString "file_offsets".data ++ '"' :: ':' :: ' ' ::
                    (lbrace :: (offsBody k v tl ++ ['\n', rbrace]))))))) := by
        simp [marshalChars, hc, qstr, offsObj, offsBody, List.append_assoc]
      have h1 : skipWs (marshalChars c ((k, v) :: tl)) =
          lbrace :: ('\n' :: ' ' :: ' ' :: '"' ::
            (escString "journal_cursor".data ++ '"' :: ':' :: ' ' :: '"' ::
              (escString c.data ++ '"' :: ',' ::
                ('\n' :: ' ' :: ' ' :: '"' ::
                  (escString "file_offsets".data ++ '"' :: ':' :: ' ' ::
                    (lbrace :: (offsBody k v tl ++ ['\n', rbrace]))))))) := by
        rw [hsh]; rfl
      have hlen : tl.length + 1 < (marshalChars c ((k, v) :: tl)).length := by
        rw [hsh]
        simp only [offsBody, offsEntry, List.length_cons, List.length_append]
        omega
      simp only [unmarshalSS, h1]
      rw [if_pos trivial]
      rw [show ('j' :: 'o' :: 'u' :: 'r' :: 'n' :: 'a' :: 'l' :: '_' :: 'c' :: 'u' :: 'r' :: 's' :: 'o' :: 'r' :: ([] : List Char)) = "journal_cursor".data from rfl]
      rw [show ('f' :: 'i' :: 'l' :: 'e' :: '_' :: 'o' :: 'f' :: 'f' :: 's' :: 'e' :: 't' :: 's' :: ([] : List Char)) = "file_offsets".data from rfl]
      rw [decodeTop_cursor_then { journalCursor := "", fileOffsets := none } c _
        ((marshalChars c ((k, v) :: tl)).length) true]
      rw [decodeTop_offs_round { journalCursor := c, fileOffsets := none } rfl k v tl hr
        ((marshalChars c ((k, v) :: tl)).length) hlen false]
      rw [hfold]

theorem marshal_ne_nil (c : String) (offs : List (String × Int)) : marshalChars c offs ≠ [] := by
  cases offs with
  | nil => by_cases hc : c = "" <;> simp [marshalChars, hc]
  | cons hd tl => obtain ⟨k, v⟩ := hd; by_cases hc : c = "" <;> simp [marshalChars, hc]

/-- C3: `Save` then `Load` returns the saved state (with the offsets map
in the allocated form `Save` itself normalizes its argument to); loading
a legacy non-JSON bare-cursor file yields that cursor together with an
empty offsets map; and loading a missing file yields the empty state
with an empty offsets map. -/
theorem cursor_save_load_roundtrip :
    (∀ s : SourceState, canonicalState s →
      loadFromContent (some (saveContent s)) =
        { journalCursor := s.journalCursor,
          fileOffsets := some (s.fileOffsets.getD []) }) ∧
    (∀ data : String, data ≠ "" → unmarshalSS data = none →
      loadFromContent (some data) = { journalCursor := data, fileOffsets := some [] }) ∧
    loadFromContent none = { journalCursor := "", fileOffsets := some [] } := by
  refine ⟨?_, ?_, rfl⟩
  · intro s hs
    have hcan : canonicalOffsets (s.fileOffsets.getD []) := by
      unfold canonicalState at hs
      cases ho : s.fileOffsets with
      | none => exact ⟨List.Pairwise.nil, by simp⟩
      | some l =>
        simp only [ho] at hs ⊢
        simpa using hs
    have hnn : marshalChars s.journalCursor (s.fileOffsets.getD []) ≠ [] := marshal_ne_nil _ _
    have hum := unmarshalSS_marshal s.journalCursor (s.fileOffsets.getD []) hcan
    simp only [loadFromContent, saveContent]
    rw [if_neg (mk_ne_empty hnn)]
    simp only [hum]
    by_cases he : s.fileOffsets.getD [] = []
    · simp [he]
    · simp [he]
  · intro data hne hnone
    simp only [loadFromContent, if_neg hne, hnone]

/-- C3 witness: a concrete state round-trips through save and load; a
concrete legacy bare-cursor file and the missing file load as stated. -/
theorem cursor_save_load_roundtrip_witness :
    loadFromContent
        (some (saveContent { journalCursor := "cur", fileOffsets := some [("a", 7)] })) =
      { journalCursor := "cur", fileOffsets := some [("a", 7)] } ∧
    loadFromContent (some "s=abc") = { journalCursor := "s=abc", fileOffsets := some [] } ∧
    loadFromContent none = { journalCursor := "", fileOffsets := some [] } := by
  refine ⟨?_, ?_, ?_⟩
  · exact cursor_save_load_roundtrip.1
      { journalCursor := "cur", fileOffsets := some [("a", 7)] } (by decide)
  · exact cursor_save_load_roundtrip.2.1 "s=abc" (by decide) (by decide)
  · exact cursor_save_load_roundtrip.2.2

/-- C9: every state `Load` returns carries an allocated (non-nil)
offsets map — the missing-file, empty-file, legacy and JSON cases all
yield `some` — and `Save` serializes a nil offsets map exactly as it
serializes the allocated empty one, so callers may index the map with
no nil check. -/
theorem load_offsets_always_allocated :
    (∀ fc : Option String, ((loadFromContent fc).fileOffsets).isSome = true) ∧
    (∀ s : SourceState,
      saveContent s =
        saveContent { journalCursor := s.journalCursor,
                      fileOffsets := some (s.fileOffsets.getD []) }) := by
  constructor
  · intro fc
    cases fc with
    | none => rfl
    | some data =>
      simp only [loadFromContent]
      by_cases hd : data = ""
      · simp [hd]
      · rw [if_neg hd]
        cases hu : unmarshalSS data with
        | none => simp
        | some st => simp
  · intro s
    rfl

/-- C2 counterexample: for the concrete store `cursor.json` and the
state with cursor `c1`, `Save` is one direct `os.WriteFile` of the
serialized state to the target path itself, which is not the
write-to-temporary-then-rename shape the spec asserts. -/
theorem save_not_atomic_counterexample :
    saveFsOps { path := "cursor.json" } { journalCursor := "c1", fileOffsets := some [] } =
      [FsOp.writeFile "cursor.json"
        (saveContent { journalCursor := "c1", fileOffsets := some [] }) 384] ∧
    ¬ atomicSavePattern
        (saveFsOps { path := "cursor.json" } { journalCursor := "c1", fileOffsets := some [] })
        "cursor.json" := by
  refine ⟨rfl, ?_⟩
  rintro ⟨tmp, d, p, hne, heq⟩
  simp [saveFsOps] at heq

/-- C2 amended: for every store and state, `Save` performs exactly one
file-system operation — a direct `os.WriteFile` of the serialized state
to the target path with mode 0600 — and in particular never follows the
write-temp-then-rename pattern. -/
theorem save_is_single_direct_write (c : CursorStore) (s : SourceState) :
    saveFsOps c s = [FsOp.writeFile c.path (saveContent s) 384] ∧
    ¬ atomicSavePattern (saveFsOps c s) c.path := by
  refine ⟨rfl, ?_⟩
  rintro ⟨tmp, d, p, hne, heq⟩
  simp [saveFsOps] at heq

end SShield
